import Mathlib

/-!
# Kora rent-reclaim bot — a shallow embedding of the core engine

This file embeds the core of the kora-rent-reclaim-bot repository
(`src/core/database.ts`, `src/core/solana.ts`, `src/core/monitor.ts`,
`src/core/discovery.ts`, `src/core/reclaim.ts`) as executable Lean
definitions and proves or refutes the frozen specification claims
against them.

Modelling conventions:

* Lamport amounts are `Nat` (the data model fixes them as non-negative
  integers in the smallest unit); timestamps are `Int` milliseconds
  since the epoch, matching `Date.getTime()`.
* Public keys, signatures and owner programs are `String`s, as in the
  TypeScript source, which passes base58 strings throughout.
* The ledger is an oracle `Chain : String → SolAccountInfo`, the pure
  counterpart of `getAccountInfo` as used within one operation; action
  submission (`sendAndConfirmTransaction`) is an oracle
  `String → SubmitOutcome` giving, per address, either a confirmed
  signature or the thrown error message.
* The SQL state store becomes a record of lists; `UNIQUE(pubkey)` is
  the well-formedness predicate `DB.WF`.  SQL `COALESCE(x, old)` is
  `Option.orElse`; JavaScript `value || null` at the serialization
  boundary is modelled where it matters (a `0` data size is stored as
  NULL).
* `Math.floor` over possibly-negative millisecond differences is
  `Int.fdiv`, which floors like JavaScript's division-then-floor.
-/

namespace KoraBot

/-- `AccountStatus` from `src/types/index.ts`. -/
inductive AccountStatus where
  | active
  | inactive
  | closed
  | reclaimed
  | whitelisted
  | error
deriving Repr, DecidableEq, Inhabited

/-- `AccountType` from `src/types/index.ts`. -/
inductive AccountType where
  | tokenAccount
  | associatedToken
  | programData
  | system
  | unknown
deriving Repr, DecidableEq, Inhabited

/-- `TrackedAccount` from `src/types/index.ts` / the `tracked_accounts`
table of `src/core/database.ts`. -/
structure TrackedAccount where
  pubkey : String
  createdAt : Int
  sponsoredTxSignature : String
  accountType : AccountType
  rentLamports : Nat
  status : AccountStatus
  lastCheckedAt : Int
  closedAt : Option Int
  programOwner : Option String
  dataSize : Option Nat
  notes : Option String
deriving Repr, DecidableEq, Inhabited

/-- `ReclaimTransaction` from `src/types/index.ts` / the
`reclaim_transactions` table. -/
structure ReclaimTransaction where
  accountPubkey : String
  txSignature : String
  lamportsReclaimed : Nat
  reclaimedAt : Int
  success : Bool
  errorMessage : Option String
  treasuryPubkey : String
deriving Repr, DecidableEq, Inhabited

/-- A whitelist / blacklist row (`whitelist` and `blacklist` tables). -/
structure ListEntry where
  pubkey : String
  reason : Option String
  addedAt : Int
deriving Repr, DecidableEq, Inhabited

/-- The state store: the three logical table groups of
`src/core/database.ts`. -/
structure DB where
  accounts : List TrackedAccount
  reclaimLog : List ReclaimTransaction
  whitelist : List ListEntry
  blacklist : List ListEntry
deriving Repr, DecidableEq, Inhabited

/-- The empty store created by `initDatabase` on a fresh file. -/
def DB.init : DB := ⟨[], [], [], []⟩

/-- `UNIQUE(pubkey)` on `tracked_accounts`: addresses are globally
unique in the store. -/
def DB.WF (db : DB) : Prop :=
  db.accounts.Pairwise (fun a b => a.pubkey ≠ b.pubkey)

instance (db : DB) : Decidable db.WF := by
  unfold DB.WF; infer_instance

/-- `getAccount` (database.ts): the row with the given pubkey, if any. -/
def getAccount (db : DB) (pubkey : String) : Option TrackedAccount :=
  db.accounts.find? (fun a => a.pubkey = pubkey)

/-- The status the store holds for an address, when tracked. -/
def statusOf (db : DB) (pubkey : String) : Option AccountStatus :=
  (getAccount db pubkey).map (fun a => a.status)

/-- `isWhitelisted` (database.ts). -/
def isWhitelisted (db : DB) (pubkey : String) : Bool :=
  db.whitelist.any (fun e => e.pubkey = pubkey)

/-- `isBlacklisted` (database.ts). -/
def isBlacklisted (db : DB) (pubkey : String) : Bool :=
  db.blacklist.any (fun e => e.pubkey = pubkey)

/-- `updateAccountStatus` (database.ts): sets `status`, keeps the old
`closed_at` unless a new one is supplied (`COALESCE(?, closed_at)`),
and refreshes `last_checked_at`. -/
def updateAccountStatus (db : DB) (pubkey : String) (status : AccountStatus)
    (closedAt : Option Int) (now : Int) : DB :=
  { db with accounts := db.accounts.map (fun a =>
      if a.pubkey = pubkey then
        { a with status := status,
                 closedAt := closedAt.orElse (fun _ => a.closedAt),
                 lastCheckedAt := now }
      else a) }

/-- `updateAccountRent` (database.ts). -/
def updateAccountRent (db : DB) (pubkey : String) (rentLamports : Nat)
    (now : Int) : DB :=
  { db with accounts := db.accounts.map (fun a =>
      if a.pubkey = pubkey then
        { a with rentLamports := rentLamports, lastCheckedAt := now }
      else a) }

/-- `recordReclaimTransaction` (database.ts): append-only insert into
`reclaim_transactions`. -/
def recordReclaimTransaction (db : DB) (tx : ReclaimTransaction) : DB :=
  { db with reclaimLog := db.reclaimLog ++ [tx] }

/-- `upsertAccount` (database.ts): update the row when the pubkey is
already present (only the mutable columns, with `COALESCE` falling back
to the stored value), otherwise insert. -/
def upsertAccount (db : DB) (a : TrackedAccount) : DB :=
  if (getAccount db a.pubkey).isSome then
    { db with accounts := db.accounts.map (fun b =>
        if b.pubkey = a.pubkey then
          { b with rentLamports := a.rentLamports,
                   status := a.status,
                   lastCheckedAt := a.lastCheckedAt,
                   closedAt := a.closedAt.orElse (fun _ => b.closedAt),
                   programOwner := a.programOwner.orElse (fun _ => b.programOwner),
                   dataSize := a.dataSize.orElse (fun _ => b.dataSize),
                   notes := a.notes.orElse (fun _ => b.notes) }
        else b) }
  else { db with accounts := db.accounts ++ [a] }

/-- `addToWhitelist` (database.ts): `INSERT OR REPLACE` into the
whitelist, then unconditionally `updateAccountStatus(pubkey,
WHITELISTED)` for the address. -/
def addToWhitelist (db : DB) (pubkey : String) (reason : Option String)
    (now : Int) : DB :=
  let db1 := { db with whitelist :=
    db.whitelist.filter (fun e => e.pubkey ≠ pubkey) ++ [⟨pubkey, reason, now⟩] }
  updateAccountStatus db1 pubkey AccountStatus.whitelisted none now

/-- `removeFromWhitelist` (database.ts): deletes the list row only; the
account's status is left as it is. -/
def removeFromWhitelist (db : DB) (pubkey : String) : DB :=
  { db with whitelist := db.whitelist.filter (fun e => e.pubkey ≠ pubkey) }

/-- `addToBlacklist` (database.ts): list insert only, no status write. -/
def addToBlacklist (db : DB) (pubkey : String) (reason : Option String)
    (now : Int) : DB :=
  { db with blacklist :=
    db.blacklist.filter (fun e => e.pubkey ≠ pubkey) ++ [⟨pubkey, reason, now⟩] }

/-- Milliseconds in a day, the divisor in every dormancy computation. -/
def msPerDay : Int := 86400000

/-- `getEligibleAccounts` (database.ts): status `closed`, `closed_at`
at or before the dormancy cutoff (a NULL `closed_at` never satisfies
the SQL comparison), stored rent at or above the threshold, and on
neither list.  The source computes the cutoff with calendar-day
subtraction (`setDate(getDate() - minDormancyDays)`); it is modelled as
a fixed `minDormancyDays * 86400000` ms offset. -/
def getEligibleAccounts (db : DB) (minDormancyDays : Nat)
    (minLamports : Nat) (now : Int) : List TrackedAccount :=
  let cutoff : Int := now - minDormancyDays * msPerDay
  db.accounts.filter (fun a =>
    a.status = AccountStatus.closed &&
    (match a.closedAt with
     | some c => decide (c ≤ cutoff)
     | none => false) &&
    decide (minLamports ≤ a.rentLamports) &&
    !isWhitelisted db a.pubkey &&
    !isBlacklisted db a.pubkey)

/-! ## The ledger gateway (`src/core/solana.ts`) -/

/-- The owner-program constants of `solana.ts` (base58). -/
def TOKEN_PROGRAM_ID : String := "TokenkegQfeZyiNwAJbNbGKPFXCWuBvf9Ss623VQ5DA"

/-- Token-2022 program id constant of `solana.ts`. -/
def TOKEN_2022_PROGRAM_ID : String := "TokenzQdBNbLqP5VEhdkAS6EPFLC1PHnBqCXEpPxuEb"

/-- Associated-token program id constant of `solana.ts`. -/
def ASSOCIATED_TOKEN_PROGRAM_ID : String := "ATokenGPvbdGVxr1b2hvZbsiqW5xWH25efTNsLJA8knL"

/-- The system program id (`SystemProgram.programId`). -/
def SYSTEM_PROGRAM_ID : String := "11111111111111111111111111111111"

/-- What `getAccountInfo` (solana.ts) returns for one address: for a
missing account it reports `lamports = 0`, `owner = system`,
`dataSize = 0`, `exists = false`. -/
structure SolAccountInfo where
  existsOnChain : Bool
  lamports : Nat
  owner : String
  dataSize : Nat
deriving Repr, DecidableEq, Inhabited

/-- One operation's view of the ledger: the pure oracle behind
`getAccountInfo` / `getMultipleAccountsInfo` during that operation. -/
def Chain : Type := String → SolAccountInfo

/-- The outcome `sendAndConfirmTransaction` would have for an address:
a confirmed signature, or the thrown error message. -/
inductive SubmitOutcome where
  | ok (signature : String)
  | err (message : String)
deriving Repr, DecidableEq, Inhabited

/-- The submission oracle: per-address outcome of a live submission. -/
def Submitter : Type := String → SubmitOutcome

/-- `detectAccountType` (solana.ts): classify an account kind from its
owning program. -/
def detectAccountType (owner : String) : AccountType :=
  if owner = TOKEN_PROGRAM_ID ∨ owner = TOKEN_2022_PROGRAM_ID then
    AccountType.tokenAccount
  else if owner = ASSOCIATED_TOKEN_PROGRAM_ID then
    AccountType.associatedToken
  else if owner = SYSTEM_PROGRAM_ID then
    AccountType.system
  else AccountType.programData

/-- Result record of `closeAccountAndReclaimRent` (solana.ts). -/
structure CloseResult where
  signature : String
  success : Bool
  lamportsReclaimed : Nat
  error : Option String
deriving Repr, DecidableEq, Inhabited

/-- The manual-intervention refusal message of `solana.ts` for a
program-owned account. -/
def manualInterventionMsg (owner : String) : String :=
  "Cannot close program-owned account (owner: " ++ owner ++
    "). Manual intervention required."

/-- `closeAccountAndReclaimRent` (solana.ts, lines 290–374).  Reads the
account; refuses when it no longer exists; in dry-run mode returns a
simulated success *before* any owner dispatch; live, a system-owned
account gets a full-balance `SystemProgram.transfer` whose outcome is
the submission oracle's, and any other owner is refused with the
manual-intervention error. -/
def closeAccountAndReclaimRent (info : SolAccountInfo) (dryRun : Bool)
    (submit : SubmitOutcome) : CloseResult :=
  if !info.existsOnChain then
    ⟨"", false, 0, some "Account does not exist or already closed"⟩
  else if dryRun then
    ⟨"dry-run-signature", true, info.lamports, none⟩
  else if info.owner = SYSTEM_PROGRAM_ID then
    match submit with
    | SubmitOutcome.ok sig => ⟨sig, true, info.lamports, none⟩
    | SubmitOutcome.err msg => ⟨"", false, 0, some msg⟩
  else
    ⟨"", false, 0, some (manualInterventionMsg info.owner)⟩

/-! ## Configuration (`src/utils/config.ts`) -/

/-- The configuration fields the core reads. -/
structure Config where
  minDormancyDays : Nat
  minReclaimLamports : Nat
  dryRun : Bool
  treasuryPubkey : String
deriving Repr, DecidableEq, Inhabited

/-! ## Eligibility policy (`checkEligibility`, reclaim.ts lines 32–133) -/

/-- `EligibilityCheck` from the types module; the source initializes
`account` with an empty placeholder, modelled as `none` until the row
is found. -/
structure EligibilityCheck where
  eligible : Bool
  account : Option TrackedAccount
  reasons : List String
  warnings : List String
deriving Repr, DecidableEq, Inhabited

/-- The dormancy + threshold tail of `checkEligibility` (lines
104–132), reached once the tracked/lists/on-chain checks pass.
`account` here carries the in-memory status correction the source may
have applied. -/
def eligibilityTail (cfg : Config) (now : Int) (account : TrackedAccount)
    (warnings : List String) : EligibilityCheck :=
  let dormancyBlock : Option String :=
    match account.closedAt with
    | some c =>
      let daysSinceClosed := Int.fdiv (now - c) msPerDay
      if daysSinceClosed < (cfg.minDormancyDays : Int) then
        some ("Account was closed " ++ toString daysSinceClosed ++
          " days ago. Minimum dormancy period is " ++
          toString cfg.minDormancyDays ++ " days.")
      else none
    | none => none
  match dormancyBlock with
  | some reason => ⟨false, some account, [reason], warnings⟩
  | none =>
    if account.rentLamports < cfg.minReclaimLamports then
      ⟨false, some account,
        ["Account has " ++ toString account.rentLamports ++
          " lamports. Minimum threshold is " ++
          toString cfg.minReclaimLamports ++ " lamports."], warnings⟩
    else
      ⟨true, some account, ["Account is eligible for rent reclaim"], warnings⟩

/-- `checkEligibility` (reclaim.ts): returns the decision and the store
as possibly mutated by the opportunistic not-on-chain → CLOSED
correction (line 91).  The local `account` object only has `status`
corrected (its `closedAt` is *not* refreshed in memory), exactly as in
the source. -/
def checkEligibility (cfg : Config) (chain : Chain) (now : Int) (db : DB)
    (pubkey : String) : EligibilityCheck × DB :=
  match getAccount db pubkey with
  | none => (⟨false, none, ["Account is not tracked in the database"], []⟩, db)
  | some account =>
    if account.status = AccountStatus.reclaimed then
      (⟨false, some account, ["Account has already been reclaimed"], []⟩, db)
    else if isWhitelisted db pubkey then
      (⟨false, some account,
        ["Account is whitelisted (protected from reclaim)"], []⟩, db)
    else if isBlacklisted db pubkey then
      (⟨false, some account, ["Account is blacklisted"], []⟩, db)
    else
      let info := chain pubkey
      if info.existsOnChain then
        let warnings :=
          if 0 < info.lamports then
            ["Account still has " ++ toString info.lamports ++
              " lamports on-chain"]
          else []
        if 0 < info.lamports ∧ cfg.minReclaimLamports ≤ info.lamports then
          (⟨false, some account,
            ["Account still has balance and is not closed"], warnings⟩, db)
        else
          (eligibilityTail cfg now account warnings, db)
      else
        let corrected := account.status ≠ AccountStatus.closed
        let account2 :=
          if corrected then { account with status := AccountStatus.closed }
          else account
        let db2 :=
          if corrected then
            updateAccountStatus db pubkey AccountStatus.closed (some now) now
          else db
        let warnings := if corrected then ["Account status updated to CLOSED"] else []
        if account2.rentLamports = 0 then
          (⟨false, some account2,
            ["Account has no remaining rent to reclaim"], warnings⟩, db2)
        else
          (eligibilityTail cfg now account2 warnings, db2)

/-! ## Reclaim executor (`reclaimSingleAccount`, reclaim.ts lines 138–251) -/

/-- `ReclaimResult` from the types module. -/
structure ReclaimResult where
  success : Bool
  accountPubkey : String
  txSignature : Option String
  lamportsReclaimed : Option Nat
  error : Option String
  dryRun : Bool
deriving Repr, DecidableEq, Inhabited

/-- The post-eligibility body of `reclaimSingleAccount` (lines
160–238): the fresh balance read, the zero-balance fast failure (which
records nothing), the close call, and the success / failure recording
paths.  Only the live success path mutates the tracked account. -/
def reclaimBody (cfg : Config) (chain : Chain) (submit : Submitter)
    (now : Int) (db : DB) (pubkey : String) (dryRun : Bool)
    (account : TrackedAccount) : ReclaimResult × DB :=
  let info := chain pubkey
  let lamportsToReclaim :=
    if info.existsOnChain then info.lamports else account.rentLamports
  if lamportsToReclaim = 0 then
    (⟨false, pubkey, none, none, some "No lamports to reclaim", dryRun⟩, db)
  else
    let r := closeAccountAndReclaimRent (chain pubkey) dryRun (submit pubkey)
    if r.success then
      let db1 := recordReclaimTransaction db
        ⟨pubkey, r.signature, r.lamportsReclaimed, now, true, none,
          cfg.treasuryPubkey⟩
      let db2 :=
        if dryRun then db1
        else
          updateAccountRent
            (updateAccountStatus db1 pubkey AccountStatus.reclaimed none now)
            pubkey 0 now
      (⟨true, pubkey, some r.signature, some r.lamportsReclaimed, none,
        dryRun⟩, db2)
    else
      let db1 := recordReclaimTransaction db
        ⟨pubkey, (if r.signature = "" then "failed" else r.signature), 0, now,
          false, r.error, cfg.treasuryPubkey⟩
      (⟨false, pubkey, none, none, r.error, dryRun⟩, db1)

/-- `reclaimSingleAccount` (reclaim.ts): re-evaluates eligibility,
aborting with the joined reasons, then runs the reclaim body.
`forceDryRun` overrides the configured `dryRun` when supplied. -/
def reclaimSingleAccount (cfg : Config) (chain : Chain) (submit : Submitter)
    (now : Int) (db : DB) (pubkey : String) (forceDryRun : Option Bool) :
    ReclaimResult × DB :=
  let dryRun := forceDryRun.getD cfg.dryRun
  let elig := checkEligibility cfg chain now db pubkey
  if !elig.1.eligible then
    (⟨false, pubkey, none, none,
      some (String.intercalate "; " elig.1.reasons), dryRun⟩, elig.2)
  else
    reclaimBody cfg chain submit now elig.2 pubkey dryRun
      (elig.1.account.getD default)

/-- `BatchReclaimSummary` from the types module (the per-account results
list is carried as well). -/
structure BatchReclaimSummary where
  totalEligible : Nat
  totalAttempted : Nat
  totalSuccessful : Nat
  totalFailed : Nat
  totalLamportsReclaimed : Nat
  results : List ReclaimResult
  dryRun : Bool
deriving Repr, DecidableEq, Inhabited

/-- The sequential per-account loop shared by `reclaimAllEligible` and
`reclaimMultiple` (reclaim.ts lines 289–306 / 347–364). -/
def reclaimLoop (cfg : Config) (chain : Chain) (submit : Submitter)
    (now : Int) (dryRun : Bool) :
    List String → DB → BatchReclaimSummary → BatchReclaimSummary × DB
  | [], db, summary => (summary, db)
  | p :: rest, db, summary =>
    let r := reclaimSingleAccount cfg chain submit now db p (some dryRun)
    let summary2 :=
      { summary with
          totalAttempted := summary.totalAttempted + 1,
          results := summary.results ++ [r.1],
          totalSuccessful :=
            summary.totalSuccessful + (if r.1.success then 1 else 0),
          totalFailed := summary.totalFailed + (if r.1.success then 0 else 1),
          totalLamportsReclaimed := summary.totalLamportsReclaimed +
            (if r.1.success then (r.1.lamportsReclaimed.getD 0) else 0) }
    reclaimLoop cfg chain submit now dryRun rest r.2 summary2

/-- `reclaimAllEligible` (reclaim.ts): computes the eligible set once
with `getEligibleAccounts`, then reclaims each sequentially. -/
def reclaimAllEligible (cfg : Config) (chain : Chain) (submit : Submitter)
    (now : Int) (db : DB) (forceDryRun : Option Bool) :
    BatchReclaimSummary × DB :=
  let dryRun := forceDryRun.getD cfg.dryRun
  let eligible :=
    getEligibleAccounts db cfg.minDormancyDays cfg.minReclaimLamports now
  reclaimLoop cfg chain submit now dryRun (eligible.map (fun a => a.pubkey)) db
    ⟨eligible.length, 0, 0, 0, 0, [], dryRun⟩

/-- `reclaimMultiple` (reclaim.ts): the same loop over caller-supplied
addresses. -/
def reclaimMultiple (cfg : Config) (chain : Chain) (submit : Submitter)
    (now : Int) (db : DB) (pubkeys : List String) (forceDryRun : Option Bool) :
    BatchReclaimSummary × DB :=
  let dryRun := forceDryRun.getD cfg.dryRun
  reclaimLoop cfg chain submit now dryRun pubkeys db
    ⟨pubkeys.length, 0, 0, 0, 0, [], dryRun⟩

/-! ## Reconciliation engine (`src/core/monitor.ts`) -/

/-- `StatusChange` (monitor.ts). -/
structure StatusChange where
  pubkey : String
  previousStatus : AccountStatus
  newStatus : AccountStatus
  previousRent : Nat
  newRent : Nat
  reason : String
deriving Repr, DecidableEq, Inhabited

/-- `MonitorResult` (monitor.ts); duration is not modelled (wall-clock
time lies outside the embedding). -/
structure MonitorResult where
  totalChecked : Nat
  statusChanges : List StatusChange
  errors : List String
deriving Repr, DecidableEq, Inhabited

/-- `detectStatusChange` (monitor.ts lines 182–238), precedence as in
the source.  The `0.1 ×` balance-drop comparison is modelled as the
exact rational comparison `10 · lamports < rent`; no claim depends on
the floating-point rounding of that heuristic branch. -/
def detectStatusChange (tracked : TrackedAccount)
    (onChain : SolAccountInfo) : Option StatusChange :=
  if tracked.status = AccountStatus.reclaimed ∨
      tracked.status = AccountStatus.whitelisted then
    none
  else if !onChain.existsOnChain ∧ tracked.status ≠ AccountStatus.closed then
    some ⟨tracked.pubkey, tracked.status, AccountStatus.closed,
      tracked.rentLamports, 0, "Account no longer exists on-chain"⟩
  else if onChain.existsOnChain ∧ tracked.status = AccountStatus.closed then
    some ⟨tracked.pubkey, tracked.status, AccountStatus.active,
      tracked.rentLamports, onChain.lamports,
      "Account was reopened or recreated"⟩
  else if onChain.existsOnChain ∧ tracked.status = AccountStatus.active ∧
      10 * onChain.lamports < tracked.rentLamports then
    some ⟨tracked.pubkey, tracked.status, AccountStatus.inactive,
      tracked.rentLamports, onChain.lamports,
      "Account balance significantly reduced"⟩
  else none

/-- One iteration's store writes in `checkAllAccounts` (lines 84–111):
on a change, the status write (stamping `closedAt` when the new status
is CLOSED) followed by a rent write when the rent differs; otherwise a
bare rent refresh when the on-chain balance moved. -/
def monitorApply (now : Int) (a : TrackedAccount) (info : SolAccountInfo)
    (db : DB) : DB :=
  match detectStatusChange a info with
  | some sc =>
    if sc.newRent ≠ sc.previousRent then
      updateAccountRent
        (updateAccountStatus db a.pubkey sc.newStatus
          (if sc.newStatus = AccountStatus.closed then some now else none) now)
        a.pubkey sc.newRent now
    else
      updateAccountStatus db a.pubkey sc.newStatus
        (if sc.newStatus = AccountStatus.closed then some now else none) now
  | none =>
    if info.lamports ≠ a.rentLamports then
      updateAccountRent db a.pubkey info.lamports now
    else db

/-- The per-account loop of `checkAllAccounts` over the snapshot taken
before any write. -/
def monitorLoop (chain : Chain) (now : Int) :
    List TrackedAccount → DB → List StatusChange × DB
  | [], db => ([], db)
  | a :: rest, db =>
    match detectStatusChange a (chain a.pubkey) with
    | some sc =>
      (sc :: (monitorLoop chain now rest
          (monitorApply now a (chain a.pubkey) db)).1,
        (monitorLoop chain now rest
          (monitorApply now a (chain a.pubkey) db)).2)
    | none => monitorLoop chain now rest (monitorApply now a (chain a.pubkey) db)

/-- `checkAllAccounts` (monitor.ts): snapshot the Active and Inactive
rows, then reconcile each against the batched chain read. -/
def checkAllAccounts (chain : Chain) (now : Int) (db : DB) :
    MonitorResult × DB :=
  let snapshot := db.accounts.filter (fun a =>
    a.status = AccountStatus.active ∨ a.status = AccountStatus.inactive)
  let r := monitorLoop chain now snapshot db
  (⟨snapshot.length, r.1, []⟩, r.2)

/-- `checkSingleAccount` (monitor.ts): the same change detection for
one tracked address.  Unlike `checkAllAccounts`, the no-change branch
writes nothing (there is no bare rent refresh in the single-account
path, monitor.ts lines 149–171). -/
def checkSingleAccount (chain : Chain) (now : Int) (db : DB)
    (pubkey : String) : Option StatusChange × DB :=
  match getAccount db pubkey with
  | none => (none, db)
  | some account =>
    match detectStatusChange account (chain pubkey) with
    | some sc =>
      (some sc,
        if sc.newRent ≠ sc.previousRent then
          updateAccountRent
            (updateAccountStatus db pubkey sc.newStatus
              (if sc.newStatus = AccountStatus.closed then some now else none)
              now)
            pubkey sc.newRent now
        else
          updateAccountStatus db pubkey sc.newStatus
            (if sc.newStatus = AccountStatus.closed then some now else none)
            now)
    | none => (none, db)

/-! ## Discovery engine (`src/core/discovery.ts`) -/

/-- One signature entry from `getSponsoredAccountSignatures`. -/
structure SigInfo where
  signature : String
  blockTime : Option Int
deriving Repr, DecidableEq, Inhabited

/-- A fetched, parsed transaction, abstracted to what the discovery
loop consumes: the candidate addresses `findCreatedAccounts` extracts
(already deduplicated per transaction and filtered to sponsor-paid
patterns).  `none` stands for a transaction that was unavailable or
failed on-chain (`!tx || tx.meta?.err`), which the loop skips. -/
def TxFetch : Type := String → Option (List String)

/-- `DiscoveryResult` counts (discovery.ts); the accumulated accounts
list mirrors `result.accounts` only through the counts the claims
use. -/
structure DiscoveryResult where
  totalFound : Nat
  newAccounts : Nat
  existingAccounts : Nat
  errors : List String
deriving Repr, DecidableEq, Inhabited

/-- The tracked row discovery persists for a fresh candidate
(discovery.ts lines 111–128), built from a fresh chain read.  The
JavaScript `|| null` / `undefined` boundaries of `upsertAccount` are
applied here: a zero data size is stored as NULL. -/
def discoveredAccount (chain : Chain) (now : Int) (sig : SigInfo)
    (pubkey : String) : TrackedAccount :=
  let info := chain pubkey
  { pubkey := pubkey,
    createdAt := (sig.blockTime.map (fun t => t * 1000)).getD now,
    sponsoredTxSignature := sig.signature,
    accountType :=
      if info.existsOnChain then detectAccountType info.owner
      else AccountType.unknown,
    rentLamports := info.lamports,
    status :=
      if info.existsOnChain then AccountStatus.active
      else AccountStatus.closed,
    lastCheckedAt := now,
    closedAt := if info.existsOnChain then none else some now,
    programOwner := if info.existsOnChain then some info.owner else none,
    dataSize := if info.dataSize = 0 then none else some info.dataSize,
    notes := none }

/-- The running state of one discovery scan: the per-run dedup set
(`discoveredPubkeys`), the new/existing counters, and the store. -/
structure DiscState where
  seen : List String
  newCount : Nat
  existCount : Nat
  db : DB
deriving Repr, DecidableEq, Inhabited

/-- The inner candidate loop of `discoverSponsoredAccounts` (lines
91–145): skip candidates already seen this run, count the tracked ones
as existing, and read–classify–persist the fresh ones. -/
def discoverCandidates (chain : Chain) (now : Int) (sig : SigInfo) :
    List String → DiscState → DiscState
  | [], st => st
  | c :: cs, st =>
    if c ∈ st.seen then discoverCandidates chain now sig cs st
    else if (getAccount st.db c).isSome then
      discoverCandidates chain now sig cs
        { st with seen := st.seen ++ [c], existCount := st.existCount + 1 }
    else
      discoverCandidates chain now sig cs
        { st with
          seen := st.seen ++ [c],
          newCount := st.newCount + 1,
          db := upsertAccount st.db (discoveredAccount chain now sig c) }

/-- The outer transaction loop of `discoverSponsoredAccounts`: fetch
each signature's parsed transaction, skip unavailable or failed ones,
and process its candidates. -/
def discoverLoop (fetch : TxFetch) (chain : Chain) (now : Int) :
    List SigInfo → DiscState → DiscState
  | [], st => st
  | sig :: rest, st =>
    match fetch sig.signature with
    | none => discoverLoop fetch chain now rest st
    | some candidates =>
      discoverLoop fetch chain now rest
        (discoverCandidates chain now sig candidates st)

/-- `discoverSponsoredAccounts` (discovery.ts): with no sponsor
configured, a zero result with remediation hints and an untouched
store; otherwise the scan over the supplied signature history. -/
def discoverSponsoredAccounts (sponsor : Option String) (fetch : TxFetch)
    (chain : Chain) (now : Int) (sigs : List SigInfo) (db : DB) :
    DiscoveryResult × DB :=
  match sponsor with
  | none =>
    (⟨0, 0, 0,
      ["Kora signer public key not configured.",
       "Option 1: Set KORA_SIGNER_PUBKEY in .env (your signer address from signers.toml)",
       "Option 2: Set KORA_RPC_URL in .env and run: npm run cli -- kora-info",
       "Option 3: Pass it directly: npm run cli -- discover --signer <PUBKEY>"]⟩,
     db)
  | some _ =>
    let st := discoverLoop fetch chain now sigs ⟨[], 0, 0, db⟩
    (⟨st.newCount + st.existCount, st.newCount, st.existCount, []⟩, st.db)

/-- `addAccountManually` (discovery.ts lines 270–318): return the row
when already tracked, otherwise read, classify and insert — the
discovery persistence with a `manual-add` provenance. -/
def addAccountManually (chain : Chain) (now : Int) (db : DB)
    (pubkey : String) (sponsoredTxSignature : Option String) :
    Option TrackedAccount × DB :=
  match getAccount db pubkey with
  | some existing => (some existing, db)
  | none =>
    let info := chain pubkey
    let a : TrackedAccount :=
      { pubkey := pubkey,
        createdAt := now,
        sponsoredTxSignature := sponsoredTxSignature.getD "manual-add",
        accountType :=
          if info.existsOnChain then detectAccountType info.owner
          else AccountType.unknown,
        rentLamports := info.lamports,
        status :=
          if info.existsOnChain then AccountStatus.active
          else AccountStatus.closed,
        lastCheckedAt := now,
        closedAt := if info.existsOnChain then none else some now,
        programOwner := if info.existsOnChain then some info.owner else none,
        dataSize := if info.dataSize = 0 then none else some info.dataSize,
        notes := some "Manually added" }
    let db2 := upsertAccount db a
    (getAccount db2 pubkey, db2)

/-! ## Concrete fixtures used by counterexamples and witnesses -/

/-- A configuration with a 7-day dormancy window and a 100000-lamport
threshold, live by default. -/
def cfgEx : Config := ⟨7, 100000, false, "TREASURY"⟩

/-- A submission oracle that would confirm every submission. -/
def submitOkEx : Submitter := fun _ => SubmitOutcome.ok "SIG"

/-- A chain view where nothing exists. -/
def chainEmptyEx : Chain := fun _ => ⟨false, 0, SYSTEM_PROGRAM_ID, 0⟩

/-- A tracked token account, closed 10 days before `10 * msPerDay`,
with 2039280 lamports of stored rent. -/
def tokenAcctEx : TrackedAccount :=
  { pubkey := "TOK", createdAt := 0, sponsoredTxSignature := "sig0",
    accountType := AccountType.tokenAccount, rentLamports := 2039280,
    status := AccountStatus.closed, lastCheckedAt := 0, closedAt := some 0,
    programOwner := some TOKEN_PROGRAM_ID, dataSize := some 165,
    notes := none }

/-- Store holding only the token account, lists empty. -/
def dbTokenEx : DB := ⟨[tokenAcctEx], [], [], []⟩

/-- Chain view for the token fixture: the account still exists, owned
by the token program, holding 50000 lamports (below the reclaim
threshold, so eligibility passes). -/
def chainTokenEx : Chain := fun p =>
  if p = "TOK" then ⟨true, 50000, TOKEN_PROGRAM_ID, 165⟩
  else ⟨false, 0, SYSTEM_PROGRAM_ID, 0⟩

/-! ## Claim C1 — action dispatch by account kind -/

/-- Claim C1, counterexample.  An *eligible* token account (closed 10
days ago, stored rent above threshold, still on-chain with a small
balance, owned by the token program) is not closed with an atomic
close-and-return-balance action: the live executor fails it with the
manual-intervention refusal, because `closeAccountAndReclaimRent`
dispatches on the owner program and only supports the system program.
-/
theorem c1_token_account_close_refused :
    (checkEligibility cfgEx chainTokenEx (10 * msPerDay) dbTokenEx
      "TOK").1.eligible = true ∧
    (reclaimSingleAccount cfgEx chainTokenEx submitOkEx (10 * msPerDay)
      dbTokenEx "TOK" (some false)).1.success = false ∧
    (reclaimSingleAccount cfgEx chainTokenEx submitOkEx (10 * msPerDay)
      dbTokenEx "TOK" (some false)).1.error =
      some (manualInterventionMsg TOKEN_PROGRAM_ID) := by
  decide

/-- Claim C1, amended: the live reclaim action is dispatched on the
*owning program* read from the chain, not on `accountKind`, and only
the system program is supported.  An existing system-owned account gets
the full-balance transfer (the submission outcome decides success, and
a confirmed submission returns the whole balance); *every* other owner
— the token and associated-token programs included — fails with the
manual-intervention refusal, and no generic close is attempted. -/
theorem c1_amended_owner_dispatch (info : SolAccountInfo)
    (s : SubmitOutcome) (hex : info.existsOnChain = true) :
    (info.owner ≠ SYSTEM_PROGRAM_ID →
      (closeAccountAndReclaimRent info false s).success = false ∧
      (closeAccountAndReclaimRent info false s).error =
        some (manualInterventionMsg info.owner)) ∧
    (info.owner = SYSTEM_PROGRAM_ID →
      ∀ sig, s = SubmitOutcome.ok sig →
        (closeAccountAndReclaimRent info false s).success = true ∧
        (closeAccountAndReclaimRent info false s).lamportsReclaimed =
          info.lamports) := by
  constructor
  · intro hown
    simp [closeAccountAndReclaimRent, hex, hown]
  · intro hown sig hs
    subst hs
    simp [closeAccountAndReclaimRent, hex, hown]

/-- Witness for `c1_amended_owner_dispatch` at the token fixture and at
a system-owned account. -/
theorem c1_amended_owner_dispatch_witness :
    ((closeAccountAndReclaimRent ⟨true, 50000, TOKEN_PROGRAM_ID, 165⟩ false
        (SubmitOutcome.ok "SIG")).success = false ∧
      (closeAccountAndReclaimRent ⟨true, 50000, TOKEN_PROGRAM_ID, 165⟩ false
        (SubmitOutcome.ok "SIG")).error =
        some (manualInterventionMsg TOKEN_PROGRAM_ID)) ∧
    ((closeAccountAndReclaimRent ⟨true, 50000, SYSTEM_PROGRAM_ID, 0⟩ false
        (SubmitOutcome.ok "SIG")).success = true ∧
      (closeAccountAndReclaimRent ⟨true, 50000, SYSTEM_PROGRAM_ID, 0⟩ false
        (SubmitOutcome.ok "SIG")).lamportsReclaimed = 50000) := by
  constructor
  · exact (c1_amended_owner_dispatch ⟨true, 50000, TOKEN_PROGRAM_ID, 165⟩
      (SubmitOutcome.ok "SIG") rfl).1 (by decide)
  · exact (c1_amended_owner_dispatch ⟨true, 50000, SYSTEM_PROGRAM_ID, 0⟩
      (SubmitOutcome.ok "SIG") rfl).2 rfl "SIG" rfl

/-! ## Claim C2 — dry-run / live decision agreement -/

/-- Claim C2, counterexample.  On the very same existing token-owned
account, a dry-run close reports success while the live close fails
with the manual-intervention refusal: dry-run returns before the
owner-supportedness check, so the two modes do *not* agree on whether
the owning program is supported. -/
theorem c2_dry_run_live_disagree_on_owner :
    (closeAccountAndReclaimRent ⟨true, 50000, TOKEN_PROGRAM_ID, 165⟩ true
      (SubmitOutcome.ok "SIG")).success = true ∧
    (closeAccountAndReclaimRent ⟨true, 50000, TOKEN_PROGRAM_ID, 165⟩ false
      (SubmitOutcome.ok "SIG")).success = false ∧
    (reclaimSingleAccount cfgEx chainTokenEx submitOkEx (10 * msPerDay)
      dbTokenEx "TOK" (some true)).1.success = true ∧
    (reclaimSingleAccount cfgEx chainTokenEx submitOkEx (10 * msPerDay)
      dbTokenEx "TOK" (some false)).1.success = false := by
  decide

/-- Claim C2, amended: dry-run follows the live decision logic only up
to and including the existence check — on a missing account the two
modes return the identical refusal — but it short-circuits *before*
the owner-supportedness check: on any existing account dry-run reports
success, while live fails every non-system owner.  (The eligibility
re-check is shared verbatim: `checkEligibility` does not take the
dry-run flag at all.) -/
theorem c2_amended_dry_run_agreement :
    (∀ (info : SolAccountInfo) (s1 s2 : SubmitOutcome),
      info.existsOnChain = false →
      closeAccountAndReclaimRent info true s1 =
        closeAccountAndReclaimRent info false s2) ∧
    (∀ (info : SolAccountInfo) (s : SubmitOutcome),
      info.existsOnChain = true →
      (closeAccountAndReclaimRent info true s).success = true) ∧
    (∀ (info : SolAccountInfo) (s : SubmitOutcome),
      info.existsOnChain = true → info.owner ≠ SYSTEM_PROGRAM_ID →
      (closeAccountAndReclaimRent info false s).success = false) := by
  refine ⟨?_, ?_, ?_⟩
  · intro info s1 s2 h
    simp [closeAccountAndReclaimRent, h]
  · intro info s h
    simp [closeAccountAndReclaimRent, h]
  · intro info s h hown
    simp [closeAccountAndReclaimRent, h, hown]

/-- Witness for `c2_amended_dry_run_agreement` at concrete accounts. -/
theorem c2_amended_dry_run_agreement_witness :
    (closeAccountAndReclaimRent ⟨false, 0, SYSTEM_PROGRAM_ID, 0⟩ true
        (SubmitOutcome.ok "a") =
      closeAccountAndReclaimRent ⟨false, 0, SYSTEM_PROGRAM_ID, 0⟩ false
        (SubmitOutcome.err "b")) ∧
    (closeAccountAndReclaimRent ⟨true, 50000, TOKEN_PROGRAM_ID, 165⟩ true
      (SubmitOutcome.ok "a")).success = true ∧
    (closeAccountAndReclaimRent ⟨true, 50000, TOKEN_PROGRAM_ID, 165⟩ false
      (SubmitOutcome.ok "a")).success = false := by
  refine ⟨?_, ?_, ?_⟩
  · exact c2_amended_dry_run_agreement.1 _ _ _ rfl
  · exact c2_amended_dry_run_agreement.2.1 _ _ rfl
  · exact c2_amended_dry_run_agreement.2.2 _ _ rfl (by decide)

/-! ## Claim C3 — no reclaim of a vanished account -/

/-- Claim C3: when the address no longer exists on-chain, a live
reclaim attempt always returns failure; when it got past eligibility
with a nonzero stored balance, the refusal is the submission layer's
"Account does not exist or already closed", issued before any action is
built; and the eligible-set query only ever selects status-Closed rows.
A reclaim can therefore only succeed while the account exists
on-chain. -/
theorem c3_no_reclaim_of_missing_account (cfg : Config) (chain : Chain)
    (submit : Submitter) (now : Int) (db : DB) (p : String)
    (h : (chain p).existsOnChain = false) :
    (reclaimSingleAccount cfg chain submit now db p (some false)).1.success
      = false ∧
    ((checkEligibility cfg chain now db p).1.eligible = true →
      ((checkEligibility cfg chain now db p).1.account.getD
        default).rentLamports ≠ 0 →
      (reclaimSingleAccount cfg chain submit now db p (some false)).1.error =
        some "Account does not exist or already closed") ∧
    (∀ (d m : Nat) (a : TrackedAccount),
      a ∈ getEligibleAccounts db d m now → a.status = AccountStatus.closed) := by
  refine ⟨?_, ?_, ?_⟩
  · simp only [reclaimSingleAccount]
    split
    · rfl
    · next helig =>
      simp only [reclaimBody, h, Bool.false_eq_true, if_false]
      split
      · rfl
      · simp [closeAccountAndReclaimRent, h]
  · intro helig hrent
    simp only [reclaimSingleAccount]
    split
    · next hne => simp [helig] at hne
    · simp only [reclaimBody, h, Bool.false_eq_true, if_false]
      split
      · next hz => exact absurd hz hrent
      · simp [closeAccountAndReclaimRent, h]
  · intro d m a ha
    have := List.of_mem_filter ha
    simp only [Bool.and_eq_true, decide_eq_true_eq] at this
    exact this.1.1.1.1

/-- Witness for `c3_no_reclaim_of_missing_account`: the token fixture
account taken off-chain. -/
theorem c3_no_reclaim_of_missing_account_witness :
    (reclaimSingleAccount cfgEx chainEmptyEx submitOkEx (10 * msPerDay)
      dbTokenEx "TOK" (some false)).1.success = false := by
  exact (c3_no_reclaim_of_missing_account cfgEx chainEmptyEx submitOkEx
    (10 * msPerDay) dbTokenEx "TOK" rfl).1

/-! ## Claim C7 — zero balance at action time -/

/-- A closed, dormant account whose stored rent passes the threshold
but which still exists on-chain holding zero lamports. -/
def zeroBalAcctEx : TrackedAccount :=
  { pubkey := "ZRO", createdAt := 0, sponsoredTxSignature := "sig0",
    accountType := AccountType.system, rentLamports := 200000,
    status := AccountStatus.closed, lastCheckedAt := 0, closedAt := some 0,
    programOwner := some SYSTEM_PROGRAM_ID, dataSize := none, notes := none }

/-- Store holding only the zero-balance account. -/
def dbZeroEx : DB := ⟨[zeroBalAcctEx], [], [], []⟩

/-- Chain view for the zero-balance fixture: the account exists with
zero lamports. -/
def chainZeroEx : Chain := fun p =>
  if p = "ZRO" then ⟨true, 0, SYSTEM_PROGRAM_ID, 0⟩
  else ⟨false, 0, SYSTEM_PROGRAM_ID, 0⟩

/-- Claim C7, counterexample.  An account that passes eligibility but
whose balance read immediately before acting is zero does fail fast —
but *no* ReclaimTransaction row is appended: the zero-balance early
return at reclaim.ts lines 168–175 records nothing, contradicting the
claimed failed-row append. -/
theorem c7_zero_balance_records_no_row :
    (checkEligibility cfgEx chainZeroEx (20 * msPerDay) dbZeroEx
      "ZRO").1.eligible = true ∧
    (reclaimSingleAccount cfgEx chainZeroEx submitOkEx (20 * msPerDay)
      dbZeroEx "ZRO" (some false)).1.success = false ∧
    (reclaimSingleAccount cfgEx chainZeroEx submitOkEx (20 * msPerDay)
      dbZeroEx "ZRO" (some false)).1.error = some "No lamports to reclaim" ∧
    (reclaimSingleAccount cfgEx chainZeroEx submitOkEx (20 * msPerDay)
      dbZeroEx "ZRO" (some false)).2.reclaimLog = [] := by
  decide

/-- Claim C7, amended: when eligibility passes but the balance read
immediately before acting is zero (the fresh on-chain balance if the
account exists, the stored balance otherwise), the executor fails fast
with "No lamports to reclaim" and leaves the store exactly as the
eligibility re-check left it — in particular *no* ReclaimTransaction
row is appended. -/
theorem c7_amended_zero_balance_fail_fast (cfg : Config) (chain : Chain)
    (submit : Submitter) (now : Int) (db : DB) (p : String)
    (fd : Option Bool)
    (helig : (checkEligibility cfg chain now db p).1.eligible = true)
    (hzero : (if (chain p).existsOnChain then (chain p).lamports
      else ((checkEligibility cfg chain now db p).1.account.getD
        default).rentLamports) = 0) :
    (reclaimSingleAccount cfg chain submit now db p fd).1.success = false ∧
    (reclaimSingleAccount cfg chain submit now db p fd).1.error =
      some "No lamports to reclaim" ∧
    (reclaimSingleAccount cfg chain submit now db p fd).2 =
      (checkEligibility cfg chain now db p).2 := by
  simp only [reclaimSingleAccount]
  split
  · next hne => simp [helig] at hne
  · simp only [reclaimBody]
    rcases hb : (chain p).existsOnChain with _ | _ <;>
      simp only [hb, Bool.false_eq_true, if_false, if_true] at hzero ⊢ <;>
      simp [hzero]

/-- Witness for `c7_amended_zero_balance_fail_fast` at the zero-balance
fixture. -/
theorem c7_amended_zero_balance_fail_fast_witness :
    (reclaimSingleAccount cfgEx chainZeroEx submitOkEx (20 * msPerDay)
      dbZeroEx "ZRO" (some false)).1.error = some "No lamports to reclaim" := by
  exact (c7_amended_zero_balance_fail_fast cfgEx chainZeroEx submitOkEx
    (20 * msPerDay) dbZeroEx "ZRO" (some false) (by decide) (by decide)).2.1

/-! ## Claim C6 — the dry-run frame -/

/-- The only store write `checkEligibility` can make is the
opportunistic CLOSED correction for the checked address. -/
theorem checkEligibility_db (cfg : Config) (chain : Chain) (now : Int)
    (db : DB) (p : String) :
    (checkEligibility cfg chain now db p).2 = db ∨
    (checkEligibility cfg chain now db p).2 =
      updateAccountStatus db p AccountStatus.closed (some now) now := by
  unfold checkEligibility
  cases getAccount db p <;> dsimp only <;>
    first
    | exact Or.inl rfl
    | (split_ifs <;> first | exact Or.inl rfl | exact Or.inr rfl)

/-- Sharper form of `checkEligibility_db`: the opportunistic CLOSED
write fires only when the address is gone from the chain and its
stored status was not already Closed; in every other case the store is
returned untouched. -/
theorem checkEligibility_closed_write (cfg : Config) (chain : Chain)
    (now : Int) (db : DB) (p : String) :
    (checkEligibility cfg chain now db p).2 = db ∨
    ((chain p).existsOnChain = false ∧
      statusOf db p ≠ some AccountStatus.closed ∧
      (checkEligibility cfg chain now db p).2 =
        updateAccountStatus db p AccountStatus.closed (some now) now) := by
  unfold checkEligibility
  rcases hga : getAccount db p with _ | account
  · exact Or.inl rfl
  · have hst : statusOf db p = some account.status := by
      unfold statusOf; rw [hga]; rfl
    dsimp only
    by_cases h1 : account.status = AccountStatus.reclaimed
    · rw [if_pos h1]; exact Or.inl rfl
    rw [if_neg h1]
    by_cases h2 : isWhitelisted db p = true
    · rw [if_pos h2]; exact Or.inl rfl
    rw [if_neg h2]
    by_cases h3 : isBlacklisted db p = true
    · rw [if_pos h3]; exact Or.inl rfl
    rw [if_neg h3]
    rcases hex : (chain p).existsOnChain with _ | _
    · simp only [hex, Bool.false_eq_true, if_false]
      by_cases hc : account.status = AccountStatus.closed
      · simp only [if_neg (not_not_intro hc)]
        split_ifs <;> exact Or.inl rfl
      · simp only [if_pos hc]
        refine Or.inr ⟨by trivial, ?_, ?_⟩
        · rw [hst]
          intro hcontra
          injection hcontra with h4
          exact hc h4
        · split_ifs <;> rfl
    · simp only [hex, if_true]
      split_ifs <;> exact Or.inl rfl

/-- `updateAccountStatus` never touches a stored balance. -/
theorem updateAccountStatus_rents (db : DB) (p : String)
    (s : AccountStatus) (c : Option Int) (now : Int) :
    ((updateAccountStatus db p s c now).accounts.map fun a => a.rentLamports)
      = db.accounts.map fun a => a.rentLamports := by
  simp only [updateAccountStatus, List.map_map]
  refine List.map_congr_left (fun a _ => ?_)
  by_cases h : a.pubkey = p <;> simp [h]

/-- A tracked Active system account with no `closedAt` and a stored
rent above the threshold. -/
def activeAcctEx : TrackedAccount :=
  { pubkey := "ACT", createdAt := 0, sponsoredTxSignature := "sig0",
    accountType := AccountType.system, rentLamports := 200000,
    status := AccountStatus.active, lastCheckedAt := 0, closedAt := none,
    programOwner := some SYSTEM_PROGRAM_ID, dataSize := none, notes := none }

/-- Store holding only the Active account. -/
def dbActiveEx : DB := ⟨[activeAcctEx], [], [], []⟩

/-- Claim C6, counterexample, refuting both halves of the claim.
First, a dry-run reclaim of a tracked Active account that no longer
exists on-chain *does* change its stored status: the eligibility
re-check opportunistically corrects it to CLOSED even in dry-run mode.
Second, a dry-run reclaim does *not* always append a ReclaimTransaction
row: on the zero-balance fixture the run passes eligibility, fails fast
at the balance read, and the reclaim log stays empty. -/
theorem c6_dry_run_mutates_status :
    (statusOf dbActiveEx "ACT" = some AccountStatus.active ∧
      statusOf (reclaimSingleAccount cfgEx chainEmptyEx submitOkEx 0
        dbActiveEx "ACT" (some true)).2 "ACT" = some AccountStatus.closed) ∧
    ((checkEligibility cfgEx chainZeroEx (20 * msPerDay) dbZeroEx
        "ZRO").1.eligible = true ∧
      (reclaimSingleAccount cfgEx chainZeroEx submitOkEx (20 * msPerDay)
        dbZeroEx "ZRO" (some true)).2.reclaimLog = []) := by
  decide

/-- Claim C6, amended: a dry-run reclaim never changes any stored
balance, never touches the allow/deny lists, and the only status write
it can make is the opportunistic CLOSED correction of the target
address, which fires only when that address is gone from the chain and
its stored status was not already Closed; a ReclaimTransaction row is
appended *exactly when* the run reaches the action — eligibility passed
and the balance read at action time is nonzero — in which case exactly
one row for the target is appended, a simulated success row carrying
the synthetic reference `dry-run-signature`; in every other case the
reclaim log is left unchanged. -/
theorem c6_amended_dry_run_frame (cfg : Config) (chain : Chain)
    (submit : Submitter) (now : Int) (db : DB) (p : String) :
    ((reclaimSingleAccount cfg chain submit now db p
        (some true)).2.accounts.map fun a => a.rentLamports)
      = (db.accounts.map fun a => a.rentLamports) ∧
    (reclaimSingleAccount cfg chain submit now db p (some true)).2.whitelist
      = db.whitelist ∧
    (reclaimSingleAccount cfg chain submit now db p (some true)).2.blacklist
      = db.blacklist ∧
    ((reclaimSingleAccount cfg chain submit now db p (some true)).2.accounts
        = db.accounts ∨
      ((chain p).existsOnChain = false ∧
        statusOf db p ≠ some AccountStatus.closed ∧
        (reclaimSingleAccount cfg chain submit now db p
            (some true)).2.accounts
          = (updateAccountStatus db p AccountStatus.closed (some now)
              now).accounts)) ∧
    (((checkEligibility cfg chain now db p).1.eligible = true ∧
        (if (chain p).existsOnChain then (chain p).lamports
          else ((checkEligibility cfg chain now db p).1.account.getD
            default).rentLamports) ≠ 0) →
      ∃ t, (reclaimSingleAccount cfg chain submit now db p
          (some true)).2.reclaimLog = db.reclaimLog ++ [t] ∧
        t.accountPubkey = p ∧
        (t.success = true → t.txSignature = "dry-run-signature")) ∧
    (¬((checkEligibility cfg chain now db p).1.eligible = true ∧
        (if (chain p).existsOnChain then (chain p).lamports
          else ((checkEligibility cfg chain now db p).1.account.getD
            default).rentLamports) ≠ 0) →
      (reclaimSingleAccount cfg chain submit now db p
        (some true)).2.reclaimLog = db.reclaimLog) := by
  have hccw := checkEligibility_closed_write cfg chain now db p
  have haccts :
      (checkEligibility cfg chain now db p).2.accounts = db.accounts ∨
      ((chain p).existsOnChain = false ∧
        statusOf db p ≠ some AccountStatus.closed ∧
        (checkEligibility cfg chain now db p).2.accounts =
          (updateAccountStatus db p AccountStatus.closed (some now)
            now).accounts) := by
    rcases hccw with h | ⟨h1, h2, h3⟩
    · exact Or.inl (by rw [h])
    · exact Or.inr ⟨h1, h2, by rw [h3]⟩
  have hrents :
      ((checkEligibility cfg chain now db p).2.accounts.map
        fun a => a.rentLamports) = db.accounts.map fun a => a.rentLamports := by
    rcases hccw with h | ⟨_, _, h⟩ <;> rw [h]
    exact updateAccountStatus_rents db p AccountStatus.closed (some now) now
  have hwl : (checkEligibility cfg chain now db p).2.whitelist
      = db.whitelist := by
    rcases hccw with h | ⟨_, _, h⟩ <;> (rw [h]; try rfl)
  have hbl : (checkEligibility cfg chain now db p).2.blacklist
      = db.blacklist := by
    rcases hccw with h | ⟨_, _, h⟩ <;> (rw [h]; try rfl)
  have hlog : (checkEligibility cfg chain now db p).2.reclaimLog
      = db.reclaimLog := by
    rcases hccw with h | ⟨_, _, h⟩ <;> (rw [h]; try rfl)
  have hmain :
      ((¬((checkEligibility cfg chain now db p).1.eligible = true ∧
          (if (chain p).existsOnChain then (chain p).lamports
            else ((checkEligibility cfg chain now db p).1.account.getD
              default).rentLamports) ≠ 0)) ∧
        (reclaimSingleAccount cfg chain submit now db p (some true)).2 =
          (checkEligibility cfg chain now db p).2) ∨
      (((checkEligibility cfg chain now db p).1.eligible = true ∧
          (if (chain p).existsOnChain then (chain p).lamports
            else ((checkEligibility cfg chain now db p).1.account.getD
              default).rentLamports) ≠ 0) ∧
        ∃ t, (reclaimSingleAccount cfg chain submit now db p (some true)).2 =
            recordReclaimTransaction (checkEligibility cfg chain now db p).2
              t ∧
          t.accountPubkey = p ∧
          (t.success = true → t.txSignature = "dry-run-signature")) := by
    simp only [reclaimSingleAccount]
    by_cases he : (checkEligibility cfg chain now db p).1.eligible = true
    · simp only [he, Bool.not_true, Bool.false_eq_true, if_false,
        reclaimBody, Option.getD_some]
      rcases hb : (chain p).existsOnChain with _ | _
      · simp only [hb, Bool.false_eq_true, if_false]
        by_cases hz : ((checkEligibility cfg chain now db p).1.account.getD
            default).rentLamports = 0
        · rw [if_pos hz]
          exact Or.inl ⟨fun hcon => hcon.2 hz, rfl⟩
        · rw [if_neg hz]
          refine Or.inr ⟨⟨by trivial, hz⟩,
            ⟨p, "failed", 0, now, false,
              some "Account does not exist or already closed",
              cfg.treasuryPubkey⟩, ?_, rfl, ?_⟩
          · simp [closeAccountAndReclaimRent, hb, recordReclaimTransaction]
          · intro h; cases h
      · simp only [hb, if_true]
        by_cases hz : (chain p).lamports = 0
        · rw [if_pos hz]
          exact Or.inl ⟨fun hcon => hcon.2 hz, rfl⟩
        · rw [if_neg hz]
          refine Or.inr ⟨⟨by trivial, hz⟩,
            ⟨p, "dry-run-signature", (chain p).lamports, now, true, none,
              cfg.treasuryPubkey⟩, ?_, rfl, fun _ => rfl⟩
          simp [closeAccountAndReclaimRent, hb, recordReclaimTransaction]
    · simp only [Bool.not_eq_true] at he
      simp only [he, Bool.not_false, if_true]
      exact Or.inl ⟨fun hcon => Bool.false_ne_true hcon.1, by trivial⟩
  have hacc2 : (reclaimSingleAccount cfg chain submit now db p
      (some true)).2.accounts
      = (checkEligibility cfg chain now db p).2.accounts := by
    rcases hmain with ⟨_, h⟩ | ⟨_, t, h, _, _⟩ <;> (rw [h]; try rfl)
  have hwl2 : (reclaimSingleAccount cfg chain submit now db p
      (some true)).2.whitelist
      = (checkEligibility cfg chain now db p).2.whitelist := by
    rcases hmain with ⟨_, h⟩ | ⟨_, t, h, _, _⟩ <;> (rw [h]; try rfl)
  have hbl2 : (reclaimSingleAccount cfg chain submit now db p
      (some true)).2.blacklist
      = (checkEligibility cfg chain now db p).2.blacklist := by
    rcases hmain with ⟨_, h⟩ | ⟨_, t, h, _, _⟩ <;> (rw [h]; try rfl)
  refine ⟨?_, ?_, ?_, ?_, ?_, ?_⟩
  · rw [hacc2]; exact hrents
  · rw [hwl2]; exact hwl
  · rw [hbl2]; exact hbl
  · rcases haccts with h | ⟨h1, h2, h3⟩
    · exact Or.inl (by rw [hacc2, h])
    · exact Or.inr ⟨h1, h2, by rw [hacc2, h3]⟩
  · intro hcon
    rcases hmain with ⟨hn, _⟩ | ⟨_, t, h, hpk, hsig⟩
    · exact absurd hcon hn
    · refine ⟨t, ?_, hpk, hsig⟩
      rw [h]
      simp only [recordReclaimTransaction]
      rw [hlog]
  · intro hcon
    rcases hmain with ⟨_, h⟩ | ⟨hyes, _⟩
    · rw [h]; exact hlog
    · exact absurd hyes hcon

/-! ## Claim C8 — discovery idempotence -/

/-- Row lookup by pubkey commutes with a pubkey-preserving row map. -/
theorem find?_pubkey_map (g : TrackedAccount → TrackedAccount)
    (hg : ∀ a, (g a).pubkey = a.pubkey) (l : List TrackedAccount)
    (q : String) :
    (l.map g).find? (fun a => a.pubkey = q) =
      (l.find? (fun a => a.pubkey = q)).map g := by
  induction l with
  | nil => rfl
  | cons a t ih =>
    by_cases h : a.pubkey = q <;> simp [List.find?, hg, h, ih]

/-- Presence in the store is monotone under `upsertAccount`. -/
theorem getAccount_isSome_upsert (db : DB) (a : TrackedAccount) (q : String)
    (h : (getAccount db q).isSome) :
    (getAccount (upsertAccount db a) q).isSome := by
  unfold upsertAccount
  split
  · show (List.find? _ (db.accounts.map _)).isSome
    rw [find?_pubkey_map]
    · rcases Option.isSome_iff_exists.1
        (show (List.find? (fun b => b.pubkey = q) db.accounts).isSome from h)
        with ⟨b, hb⟩
      simp [hb]
    · intro b; by_cases hb : b.pubkey = a.pubkey <;> simp [hb]
  · show (List.find? _ (db.accounts ++ [a])).isSome
    rw [List.find?_append]
    have : (List.find? (fun b => b.pubkey = q) db.accounts).isSome := h
    rcases Option.isSome_iff_exists.1 this with ⟨b, hb⟩
    simp [hb]

/-- The upserted address is present afterwards. -/
theorem getAccount_isSome_upsert_self (db : DB) (a : TrackedAccount) :
    (getAccount (upsertAccount db a) a.pubkey).isSome := by
  unfold upsertAccount
  split
  · next hs =>
    show (List.find? _ (db.accounts.map _)).isSome
    rw [find?_pubkey_map]
    · simpa [getAccount, Option.isSome_map] using hs
    · intro b; by_cases hb : b.pubkey = a.pubkey <;> simp [hb]
  · show (List.find? _ (db.accounts ++ [a])).isSome
    rw [List.find?_append]
    rcases hf : List.find? (fun b => b.pubkey = a.pubkey) db.accounts with _ | b <;>
      simp [hf, List.find?]

/-- The candidate loop: presence is monotone, the dedup set stays
tracked, and every processed candidate ends up tracked. -/
theorem discoverCandidates_spec (chain : Chain) (now : Int) (sig : SigInfo) :
    ∀ (cs : List String) (st : DiscState),
    (∀ c ∈ st.seen, (getAccount st.db c).isSome) →
    (∀ q, (getAccount st.db q).isSome →
      (getAccount (discoverCandidates chain now sig cs st).db q).isSome) ∧
    (∀ c ∈ (discoverCandidates chain now sig cs st).seen,
      (getAccount (discoverCandidates chain now sig cs st).db c).isSome) ∧
    (∀ c ∈ cs, (getAccount (discoverCandidates chain now sig cs st).db c).isSome)
  | [], st => by
    intro hseen
    exact ⟨fun q h => h, hseen, by simp⟩
  | c :: cs, st => by
    intro hseen
    unfold discoverCandidates
    split
    · next hmem =>
      have rec := discoverCandidates_spec chain now sig cs st hseen
      exact ⟨rec.1, rec.2.1, fun d hd => by
        rcases List.mem_cons.1 hd with rfl | hd
        · exact rec.1 d (hseen d hmem)
        · exact rec.2.2 d hd⟩
    · split
      · next hmem hsome =>
        have hseen2 : ∀ d ∈ st.seen ++ [c],
            (getAccount st.db d).isSome := by
          intro d hd
          rcases List.mem_append.1 hd with hd | hd
          · exact hseen d hd
          · simp at hd; subst hd; exact hsome
        have rec := discoverCandidates_spec chain now sig cs
          { st with seen := st.seen ++ [c], existCount := st.existCount + 1 }
          hseen2
        exact ⟨rec.1, rec.2.1, fun d hd => by
          rcases List.mem_cons.1 hd with rfl | hd
          · exact rec.1 d hsome
          · exact rec.2.2 d hd⟩
      · next hmem hnone =>
        have hcself : (getAccount
            (upsertAccount st.db (discoveredAccount chain now sig c))
            c).isSome :=
          getAccount_isSome_upsert_self st.db (discoveredAccount chain now sig c)
        have hmono : ∀ q, (getAccount st.db q).isSome →
            (getAccount (upsertAccount st.db
              (discoveredAccount chain now sig c)) q).isSome :=
          fun q h => getAccount_isSome_upsert st.db _ q h
        have hseen2 : ∀ d ∈ st.seen ++ [c],
            (getAccount (upsertAccount st.db
              (discoveredAccount chain now sig c)) d).isSome := by
          intro d hd
          rcases List.mem_append.1 hd with hd | hd
          · exact hmono d (hseen d hd)
          · simp at hd; subst hd; exact hcself
        have rec := discoverCandidates_spec chain now sig cs
          { st with
            seen := st.seen ++ [c],
            newCount := st.newCount + 1,
            db := upsertAccount st.db (discoveredAccount chain now sig c) }
          hseen2
        exact ⟨fun q h => rec.1 q (hmono q h), rec.2.1, fun d hd => by
          rcases List.mem_cons.1 hd with rfl | hd
          · exact rec.1 d hcself
          · exact rec.2.2 d hd⟩

/-- The signature loop: presence is monotone, the dedup set stays
tracked, and every candidate of every fetched transaction ends up
tracked. -/
theorem discoverLoop_spec (fetch : TxFetch) (chain : Chain) (now : Int) :
    ∀ (sigs : List SigInfo) (st : DiscState),
    (∀ c ∈ st.seen, (getAccount st.db c).isSome) →
    (∀ q, (getAccount st.db q).isSome →
      (getAccount (discoverLoop fetch chain now sigs st).db q).isSome) ∧
    (∀ sig ∈ sigs, ∀ cands, fetch sig.signature = some cands →
      ∀ c ∈ cands,
        (getAccount (discoverLoop fetch chain now sigs st).db c).isSome)
  | [], st => by
    intro hseen
    exact ⟨fun q h => h, by simp⟩
  | sig :: rest, st => by
    intro hseen
    unfold discoverLoop
    cases hfetch : fetch sig.signature with
    | none =>
      have rec := discoverLoop_spec fetch chain now rest st hseen
      refine ⟨rec.1, fun s hs cands hc c hcc => ?_⟩
      rcases List.mem_cons.1 hs with rfl | hs
      · rw [hfetch] at hc; cases hc
      · exact rec.2 s hs cands hc c hcc
    | some candidates =>
      have cspec := discoverCandidates_spec chain now sig candidates st hseen
      have rec := discoverLoop_spec fetch chain now rest
        (discoverCandidates chain now sig candidates st) cspec.2.1
      refine ⟨fun q h => rec.1 q (cspec.1 q h), fun s hs cands hc c hcc => ?_⟩
      rcases List.mem_cons.1 hs with rfl | hs
      · rw [hfetch] at hc
        cases hc
        exact rec.1 c (cspec.2.2 c hcc)
      · exact rec.2 s hs cands hc c hcc

/-- When every candidate is already tracked, the candidate loop leaves
the store and the new-account counter untouched. -/
theorem discoverCandidates_noop (chain : Chain) (now : Int) (sig : SigInfo) :
    ∀ (cs : List String) (st : DiscState),
    (∀ c ∈ cs, (getAccount st.db c).isSome) →
    (discoverCandidates chain now sig cs st).db = st.db ∧
    (discoverCandidates chain now sig cs st).newCount = st.newCount
  | [], st => by intro _; exact ⟨rfl, rfl⟩
  | c :: cs, st => by
    intro htracked
    unfold discoverCandidates
    split
    · exact discoverCandidates_noop chain now sig cs st
        (fun d hd => htracked d (List.mem_cons_of_mem c hd))
    · split
      · exact discoverCandidates_noop chain now sig cs
          { st with seen := st.seen ++ [c], existCount := st.existCount + 1 }
          (fun d hd => htracked d (List.mem_cons_of_mem c hd))
      · next hmem hnone =>
        exact absurd (htracked c (List.mem_cons_self c cs)) hnone

/-- When every candidate of every fetched transaction is already
tracked, the signature loop leaves the store and the new-account
counter untouched. -/
theorem discoverLoop_noop (fetch : TxFetch) (chain : Chain) (now : Int) :
    ∀ (sigs : List SigInfo) (st : DiscState),
    (∀ sig ∈ sigs, ∀ cands, fetch sig.signature = some cands →
      ∀ c ∈ cands, (getAccount st.db c).isSome) →
    (discoverLoop fetch chain now sigs st).db = st.db ∧
    (discoverLoop fetch chain now sigs st).newCount = st.newCount
  | [], st => by intro _; exact ⟨rfl, rfl⟩
  | sig :: rest, st => by
    intro htracked
    unfold discoverLoop
    cases hfetch : fetch sig.signature with
    | none =>
      exact discoverLoop_noop fetch chain now rest st
        (fun s hs => htracked s (List.mem_cons_of_mem sig hs))
    | some candidates =>
      have hc : ∀ c ∈ candidates, (getAccount st.db c).isSome :=
        htracked sig (List.mem_cons_self sig rest) candidates hfetch
      have cnoop := discoverCandidates_noop chain now sig candidates st hc
      have rec := discoverLoop_noop fetch chain now rest
        (discoverCandidates chain now sig candidates st)
        (by rw [cnoop.1]; exact fun s hs => htracked s (List.mem_cons_of_mem sig hs))
      exact ⟨rec.1.trans cnoop.1, rec.2.trans cnoop.2⟩

/-- Claim C8: a second discovery run over the identical transaction
history (same signature list and same fetched candidates — the chain
read and clock of the second run may even differ) leaves the store
exactly as the first run left it, reports zero new accounts, and counts
every candidate it found as existing. -/
theorem c8_discovery_idempotent (s : String) (fetch : TxFetch)
    (chain chain2 : Chain) (now now2 : Int) (sigs : List SigInfo) (db : DB) :
    (discoverSponsoredAccounts (some s) fetch chain2 now2 sigs
        (discoverSponsoredAccounts (some s) fetch chain now sigs db).2).2 =
      (discoverSponsoredAccounts (some s) fetch chain now sigs db).2 ∧
    (discoverSponsoredAccounts (some s) fetch chain2 now2 sigs
        (discoverSponsoredAccounts (some s) fetch chain now sigs db).2).1.newAccounts
      = 0 ∧
    (discoverSponsoredAccounts (some s) fetch chain2 now2 sigs
        (discoverSponsoredAccounts (some s) fetch chain now sigs db).2).1.existingAccounts
      = (discoverSponsoredAccounts (some s) fetch chain2 now2 sigs
          (discoverSponsoredAccounts (some s) fetch chain now sigs db).2).1.totalFound := by
  have run1 := discoverLoop_spec fetch chain now sigs ⟨[], 0, 0, db⟩ (by simp)
  have run2 := discoverLoop_noop fetch chain2 now2 sigs
    ⟨[], 0, 0, (discoverLoop fetch chain now sigs ⟨[], 0, 0, db⟩).db⟩
    (fun sig hs cands hc c hcc => run1.2 sig hs cands hc c hcc)
  simp only [discoverSponsoredAccounts]
  refine ⟨run2.1, run2.2, ?_⟩
  rw [run2.2, Nat.zero_add]


/-! ## Claim C9 — reconciliation closes a vanished Active account -/

/-- A found row carries the looked-up pubkey. -/
theorem getAccount_pubkey (db : DB) (q : String) (a : TrackedAccount)
    (h : getAccount db q = some a) : a.pubkey = q := by
  have := List.find?_some h
  simpa using this

/-- `getAccount` after `updateAccountStatus`, characterized. -/
theorem getAccount_updateStatus (db : DB) (p : String) (s : AccountStatus)
    (c : Option Int) (now : Int) (q : String) :
    getAccount (updateAccountStatus db p s c now) q =
      (getAccount db q).map (fun a =>
        if a.pubkey = p then
          { a with
            status := s,
            closedAt := c.orElse (fun _ => a.closedAt),
            lastCheckedAt := now }
        else a) := by
  unfold getAccount updateAccountStatus
  exact find?_pubkey_map _
    (fun a => by by_cases h : a.pubkey = p <;> simp [h]) _ q

/-- `getAccount` after `updateAccountRent`, characterized. -/
theorem getAccount_updateRent (db : DB) (p : String) (r : Nat) (now : Int)
    (q : String) :
    getAccount (updateAccountRent db p r now) q =
      (getAccount db q).map (fun a =>
        if a.pubkey = p then
          { a with rentLamports := r, lastCheckedAt := now }
        else a) := by
  unfold getAccount updateAccountRent
  exact find?_pubkey_map _
    (fun a => by by_cases h : a.pubkey = p <;> simp [h]) _ q

/-- A status write for one address leaves every other row unread. -/
theorem getAccount_updateStatus_ne (db : DB) (p : String)
    (s : AccountStatus) (c : Option Int) (now : Int) (q : String)
    (h : q ≠ p) :
    getAccount (updateAccountStatus db p s c now) q = getAccount db q := by
  rw [getAccount_updateStatus]
  cases hga : getAccount db q with
  | none => rfl
  | some a =>
    have := getAccount_pubkey db q a hga
    simp [this, h]

/-- A rent write for one address leaves every other row unread. -/
theorem getAccount_updateRent_ne (db : DB) (p : String) (r : Nat)
    (now : Int) (q : String) (h : q ≠ p) :
    getAccount (updateAccountRent db p r now) q = getAccount db q := by
  rw [getAccount_updateRent]
  cases hga : getAccount db q with
  | none => rfl
  | some a =>
    have := getAccount_pubkey db q a hga
    simp [this, h]

/-- One reconciliation iteration leaves other addresses' rows
unchanged. -/
theorem monitorApply_frame (now : Int) (a : TrackedAccount)
    (info : SolAccountInfo) (db : DB) (q : String) (h : q ≠ a.pubkey) :
    getAccount (monitorApply now a info db) q = getAccount db q := by
  unfold monitorApply
  rcases hdet : detectStatusChange a info with _ | sc <;> simp only [hdet]
  · split
    · exact getAccount_updateRent_ne db a.pubkey _ now q h
    · rfl
  · split
    · rw [getAccount_updateRent_ne _ a.pubkey _ now q h,
        getAccount_updateStatus_ne db a.pubkey _ _ now q h]
    · exact getAccount_updateStatus_ne db a.pubkey _ _ now q h

/-- A detected change names the account it was detected on. -/
theorem detectStatusChange_pubkey (a : TrackedAccount)
    (info : SolAccountInfo) (sc : StatusChange)
    (h : detectStatusChange a info = some sc) : sc.pubkey = a.pubkey := by
  unfold detectStatusChange at h
  split_ifs at h <;> cases h <;> rfl

/-- Unfolding one step of the reconciliation loop. -/
theorem monitorLoop_cons (chain : Chain) (now : Int) (a : TrackedAccount)
    (rest : List TrackedAccount) (db : DB) :
    monitorLoop chain now (a :: rest) db =
      match detectStatusChange a (chain a.pubkey) with
      | some sc =>
        (sc :: (monitorLoop chain now rest
            (monitorApply now a (chain a.pubkey) db)).1,
          (monitorLoop chain now rest
            (monitorApply now a (chain a.pubkey) db)).2)
      | none =>
        monitorLoop chain now rest (monitorApply now a (chain a.pubkey) db) :=
  rfl

/-- The reconciliation loop leaves an address untouched, and reports no
change for it, when no snapshot row carries it. -/
theorem monitorLoop_frame (chain : Chain) (now : Int) :
    ∀ (L : List TrackedAccount) (db : DB) (q : String),
    (∀ b ∈ L, b.pubkey ≠ q) →
    getAccount (monitorLoop chain now L db).2 q = getAccount db q ∧
    (∀ sc ∈ (monitorLoop chain now L db).1, sc.pubkey ≠ q)
  | [], db, q => by intro _; exact ⟨rfl, by simp [monitorLoop]⟩
  | a :: L, db, q => by
    intro hb
    have hq : q ≠ a.pubkey := fun h =>
      hb a (List.mem_cons_self a L) h.symm
    have rec := monitorLoop_frame chain now L
      (monitorApply now a (chain a.pubkey) db) q
      (fun b h => hb b (List.mem_cons_of_mem a h))
    rw [monitorLoop_cons]
    rcases hdet : detectStatusChange a (chain a.pubkey) with _ | sc <;>
      simp only [hdet]
    · exact ⟨rec.1.trans (monitorApply_frame now a _ db q hq), rec.2⟩
    · refine ⟨rec.1.trans (monitorApply_frame now a _ db q hq), ?_⟩
      intro x hx
      rcases List.mem_cons.1 hx with rfl | hx
      · rw [detectStatusChange_pubkey a _ x hdet]
        exact fun h => hq h.symm
      · exact rec.2 x hx

/-- `detectStatusChange` on an Active row that vanished from the chain:
the Active→Closed change, with the balance slated to 0. -/
theorem detectStatusChange_vanished (a : TrackedAccount)
    (info : SolAccountInfo) (hact : a.status = AccountStatus.active)
    (hne : info.existsOnChain = false) :
    detectStatusChange a info =
      some ⟨a.pubkey, AccountStatus.active, AccountStatus.closed,
        a.rentLamports, 0, "Account no longer exists on-chain"⟩ := by
  simp [detectStatusChange, hact, hne]

/-- One reconciliation iteration on a vanished Active row: the stored
row comes out Closed with `closedAt = now` and balance 0. -/
theorem monitorApply_vanished (now : Int) (a : TrackedAccount)
    (info : SolAccountInfo) (db : DB)
    (hga : getAccount db a.pubkey = some a)
    (hact : a.status = AccountStatus.active)
    (hne : info.existsOnChain = false) :
    getAccount (monitorApply now a info db) a.pubkey =
      some { a with
        status := AccountStatus.closed,
        rentLamports := 0,
        closedAt := some now,
        lastCheckedAt := now } := by
  by_cases hz : a.rentLamports = 0
  · simp [monitorApply, detectStatusChange_vanished a info hact hne, hz,
      getAccount_updateStatus, hga, Option.orElse]
  · simp [monitorApply, detectStatusChange_vanished a info hact hne,
      Ne.symm hz, getAccount_updateRent, getAccount_updateStatus, hga,
      Option.orElse]

/-- Splitting the reconciliation loop across a list split. -/
theorem monitorLoop_append (chain : Chain) (now : Int) :
    ∀ (L1 L2 : List TrackedAccount) (db : DB),
    monitorLoop chain now (L1 ++ L2) db =
      ((monitorLoop chain now L1 db).1 ++
        (monitorLoop chain now L2 (monitorLoop chain now L1 db).2).1,
       (monitorLoop chain now L2 (monitorLoop chain now L1 db).2).2)
  | [], L2, db => by simp [monitorLoop]
  | a :: L1, L2, db => by
    have rec := monitorLoop_append chain now L1 L2
      (monitorApply now a (chain a.pubkey) db)
    rw [List.cons_append, monitorLoop_cons, monitorLoop_cons]
    cases hdet : detectStatusChange a (chain a.pubkey) <;> simp [hdet, rec]

/-- With unique addresses, lookup of a member's pubkey finds exactly
that member. -/
theorem find?_pubkey_of_mem :
    ∀ (l : List TrackedAccount),
    l.Pairwise (fun x y => x.pubkey ≠ y.pubkey) →
    ∀ a ∈ l, l.find? (fun b => b.pubkey = a.pubkey) = some a
  | [], _, a, ha => absurd ha (List.not_mem_nil a)
  | b :: t, hwf, a, ha => by
    rcases List.mem_cons.1 ha with rfl | ha
    · simp [List.find?]
    · have hne : b.pubkey ≠ a.pubkey :=
        (List.pairwise_cons.1 hwf).1 a ha
      have rec := find?_pubkey_of_mem t (List.pairwise_cons.1 hwf).2 a ha
      simp [List.find?, hne, rec]

/-- `getAccount` finds a member row under `DB.WF`. -/
theorem getAccount_of_mem_wf (db : DB) (hwf : db.WF) (a : TrackedAccount)
    (ha : a ∈ db.accounts) : getAccount db a.pubkey = some a :=
  find?_pubkey_of_mem db.accounts hwf a ha

/-- Claim C9: a reconciliation run over a store containing an Active
account that no longer exists on-chain records exactly one status
change for that account — Active to Closed, with the balance slated to
0 — and afterwards the stored row is Closed with `closedAt` equal to
the run time and balance 0. -/
theorem c9_monitor_closes_vanished_active (chain : Chain) (now : Int)
    (db : DB) (a : TrackedAccount) (hwf : db.WF) (ha : a ∈ db.accounts)
    (hact : a.status = AccountStatus.active)
    (hne : (chain a.pubkey).existsOnChain = false) :
    ((checkAllAccounts chain now db).1.statusChanges.filter
        (fun sc => sc.pubkey = a.pubkey)).length = 1 ∧
    (∀ sc ∈ (checkAllAccounts chain now db).1.statusChanges,
      sc.pubkey = a.pubkey →
        sc.previousStatus = AccountStatus.active ∧
        sc.newStatus = AccountStatus.closed ∧ sc.newRent = 0) ∧
    getAccount (checkAllAccounts chain now db).2 a.pubkey =
      some { a with
        status := AccountStatus.closed,
        rentLamports := 0,
        closedAt := some now,
        lastCheckedAt := now } := by
  have hsnapwf : (db.accounts.filter (fun b =>
      b.status = AccountStatus.active ∨
        b.status = AccountStatus.inactive)).Pairwise
      (fun x y => x.pubkey ≠ y.pubkey) := hwf.filter _
  have hasnap : a ∈ db.accounts.filter (fun b =>
      b.status = AccountStatus.active ∨
        b.status = AccountStatus.inactive) := by
    rw [List.mem_filter]
    exact ⟨ha, by simp [hact]⟩
  rcases List.append_of_mem hasnap with ⟨L1, L2, hsplit⟩
  have hwf12 := hsplit ▸ hsnapwf
  have hL1 : ∀ b ∈ L1, b.pubkey ≠ a.pubkey := by
    intro b hb
    exact (List.pairwise_append.1 hwf12).2.2 b hb a (List.mem_cons_self a L2)
  have hL2 : ∀ b ∈ L2, b.pubkey ≠ a.pubkey := by
    intro b hb
    have := (List.pairwise_cons.1 (List.pairwise_append.1 hwf12).2.1).1 b hb
    exact fun h => this h.symm
  have hga : getAccount db a.pubkey = some a := getAccount_of_mem_wf db hwf a ha
  simp only [checkAllAccounts]
  rw [hsplit, monitorLoop_append]
  have f1 := monitorLoop_frame chain now L1 db a.pubkey hL1
  have hga1 : getAccount (monitorLoop chain now L1 db).2 a.pubkey = some a :=
    f1.1.trans hga
  have hstep := monitorApply_vanished now a (chain a.pubkey)
    (monitorLoop chain now L1 db).2 hga1 hact hne
  have f2 := monitorLoop_frame chain now L2
    (monitorApply now a (chain a.pubkey) (monitorLoop chain now L1 db).2)
    a.pubkey hL2
  have hmid : monitorLoop chain now (a :: L2) (monitorLoop chain now L1 db).2 =
      (⟨a.pubkey, AccountStatus.active, AccountStatus.closed, a.rentLamports,
        0, "Account no longer exists on-chain"⟩ ::
        (monitorLoop chain now L2 (monitorApply now a (chain a.pubkey)
          (monitorLoop chain now L1 db).2)).1,
       (monitorLoop chain now L2 (monitorApply now a (chain a.pubkey)
          (monitorLoop chain now L1 db).2)).2) := by
    rw [monitorLoop_cons,
      detectStatusChange_vanished a (chain a.pubkey) hact hne]
  rw [hmid]
  refine ⟨?_, ?_, ?_⟩
  · simp only [List.filter_append, List.filter_cons]
    rw [List.filter_eq_nil_iff.2 (fun sc hsc => by simp [f1.2 sc hsc]),
      List.filter_eq_nil_iff.2 (fun sc hsc => by simp [f2.2 sc hsc])]
    simp
  · intro sc hsc hpk
    rcases List.mem_append.1 hsc with hsc | hsc
    · exact absurd hpk (f1.2 sc hsc)
    · rcases List.mem_cons.1 hsc with rfl | hsc
      · exact ⟨rfl, rfl, rfl⟩
      · exact absurd hpk (f2.2 sc hsc)
  · exact f2.1.trans hstep

/-- Witness for `c9_monitor_closes_vanished_active`: the Active fixture
account checked against an empty chain. -/
theorem c9_monitor_closes_vanished_active_witness :
    ((checkAllAccounts chainEmptyEx 5 dbActiveEx).1.statusChanges.filter
      (fun sc => sc.pubkey = activeAcctEx.pubkey)).length = 1 := by
  exact (c9_monitor_closes_vanished_active chainEmptyEx 5 dbActiveEx
    activeAcctEx (by decide) (by decide) (by decide) (by decide)).1


/-! ## The operation set

Every store-mutating core operation, as invoked by the CLI and the
scheduled cycles, bundled into one step type.  Oracles (chain view,
fetcher, submitter, clock) are carried as parameters of each step. -/

/-- One core operation against the state store. -/
inductive Op where
  | opDiscover (sponsor : Option String) (fetch : TxFetch) (chain : Chain)
      (now : Int) (sigs : List SigInfo)
  | opManualAdd (chain : Chain) (now : Int) (pubkey : String)
      (sig : Option String)
  | opMonitorAll (chain : Chain) (now : Int)
  | opMonitorOne (chain : Chain) (now : Int) (pubkey : String)
  | opEligCheck (cfg : Config) (chain : Chain) (now : Int) (pubkey : String)
  | opReclaimOne (cfg : Config) (chain : Chain) (submit : Submitter)
      (now : Int) (pubkey : String) (forceDryRun : Option Bool)
  | opReclaimAllEligible (cfg : Config) (chain : Chain) (submit : Submitter)
      (now : Int) (forceDryRun : Option Bool)
  | opReclaimMultiple (cfg : Config) (chain : Chain) (submit : Submitter)
      (now : Int) (pubkeys : List String) (forceDryRun : Option Bool)
  | opWhitelistAdd (pubkey : String) (reason : Option String) (now : Int)
  | opWhitelistRemove (pubkey : String)
  | opBlacklistAdd (pubkey : String) (reason : Option String) (now : Int)

/-- The store after running one operation. -/
def Op.apply : Op → DB → DB
  | Op.opDiscover sponsor fetch chain now sigs, db =>
    (discoverSponsoredAccounts sponsor fetch chain now sigs db).2
  | Op.opManualAdd chain now p sig, db => (addAccountManually chain now db p sig).2
  | Op.opMonitorAll chain now, db => (checkAllAccounts chain now db).2
  | Op.opMonitorOne chain now p, db => (checkSingleAccount chain now db p).2
  | Op.opEligCheck cfg chain now p, db => (checkEligibility cfg chain now db p).2
  | Op.opReclaimOne cfg chain submit now p fd, db =>
    (reclaimSingleAccount cfg chain submit now db p fd).2
  | Op.opReclaimAllEligible cfg chain submit now fd, db =>
    (reclaimAllEligible cfg chain submit now db fd).2
  | Op.opReclaimMultiple cfg chain submit now ps fd, db =>
    (reclaimMultiple cfg chain submit now db ps fd).2
  | Op.opWhitelistAdd p r now, db => addToWhitelist db p r now
  | Op.opWhitelistRemove p, db => removeFromWhitelist db p
  | Op.opBlacklistAdd p r now, db => addToBlacklist db p r now

/-- Does the operation run the Reclaim Executor? -/
def Op.isReclaimOp : Op → Bool
  | Op.opReclaimOne _ _ _ _ _ _ => true
  | Op.opReclaimAllEligible _ _ _ _ _ => true
  | Op.opReclaimMultiple _ _ _ _ _ _ => true
  | _ => false

/-- Is the operation the allow-list add mutator? -/
def Op.isWhitelistAdd : Op → Bool
  | Op.opWhitelistAdd _ _ _ => true
  | _ => false

/-- One step of the system: some operation ran. -/
def Step (db db2 : DB) : Prop := ∃ op : Op, db2 = op.apply db

/-- Stores reachable from the empty store by core operations. -/
def Reachable (db : DB) : Prop := Relation.ReflTransGen Step DB.init db


/-! ## Claim C10 — terminality of Reclaimed -/

/-- The stored status after a status write, characterized. -/
theorem statusOf_updateStatus (db : DB) (p : String) (s : AccountStatus)
    (c : Option Int) (now : Int) (q : String) :
    statusOf (updateAccountStatus db p s c now) q =
      (statusOf db q).map (fun st => if q = p then s else st) := by
  unfold statusOf
  rw [getAccount_updateStatus]
  cases hga : getAccount db q with
  | none => rfl
  | some a =>
    have := getAccount_pubkey db q a hga
    by_cases hqp : q = p <;> simp [this, hqp]

/-- Appending a log row reads back the same accounts. -/
theorem getAccount_record (db : DB) (t : ReclaimTransaction) (q : String) :
    getAccount (recordReclaimTransaction db t) q = getAccount db q := rfl

/-- Inserting a fresh address preserves every present row. -/
theorem getAccount_upsert_fresh (db : DB) (a : TrackedAccount) (q : String)
    (r : TrackedAccount) (hfresh : getAccount db a.pubkey = none)
    (h : getAccount db q = some r) :
    getAccount (upsertAccount db a) q = some r := by
  unfold upsertAccount
  rw [hfresh]
  simp only [Option.isSome_none, Bool.false_eq_true, if_false]
  show List.find? _ (db.accounts ++ [a]) = some r
  rw [List.find?_append]
  have h2 : List.find? (fun b => decide (b.pubkey = q)) db.accounts = some r := h
  rw [h2]
  rfl

/-- The eligibility re-check leaves other addresses' rows unread. -/
theorem checkEligibility_frame_ne (cfg : Config) (chain : Chain) (now : Int)
    (db : DB) (p q : String) (h : q ≠ p) :
    getAccount (checkEligibility cfg chain now db p).2 q = getAccount db q := by
  rcases checkEligibility_db cfg chain now db p with hdb | hdb <;> rw [hdb]
  exact getAccount_updateStatus_ne db p _ _ now q h

/-- On an already-Reclaimed row, the eligibility check refuses
immediately and writes nothing. -/
theorem checkEligibility_reclaimed (cfg : Config) (chain : Chain)
    (now : Int) (db : DB) (p : String) (r : TrackedAccount)
    (hr : getAccount db p = some r)
    (hst : r.status = AccountStatus.reclaimed) :
    checkEligibility cfg chain now db p =
      (⟨false, some r, ["Account has already been reclaimed"], []⟩, db) := by
  unfold checkEligibility
  rw [hr]
  simp [hst]

/-- The reclaim body leaves other addresses' rows unread. -/
theorem reclaimBody_frame_ne (cfg : Config) (chain : Chain)
    (submit : Submitter) (now : Int) (db : DB) (p : String) (dr : Bool)
    (acct : TrackedAccount) (q : String) (h : q ≠ p) :
    getAccount (reclaimBody cfg chain submit now db p dr acct).2 q =
      getAccount db q := by
  have hfin : ∀ t : ReclaimTransaction,
      getAccount (updateAccountRent (updateAccountStatus
        (recordReclaimTransaction db t) p AccountStatus.reclaimed none now)
        p 0 now) q = getAccount db q := by
    intro t
    rw [getAccount_updateRent_ne _ p _ now q h,
      getAccount_updateStatus_ne _ p _ _ now q h]
    rfl
  simp only [reclaimBody]
  by_cases hz : (if (chain p).existsOnChain = true then (chain p).lamports
      else acct.rentLamports) = 0
  · rw [if_pos hz]
  · rw [if_neg hz]
    by_cases hs :
        (closeAccountAndReclaimRent (chain p) dr (submit p)).success = true
    · rw [if_pos hs]
      by_cases hd : dr = true
      · rw [if_pos hd]
        rfl
      · rw [if_neg hd]
        exact hfin _
    · rw [if_neg hs]
      rfl

/-- A reclaim of one address leaves other addresses' rows unread. -/
theorem reclaimOne_frame_ne (cfg : Config) (chain : Chain)
    (submit : Submitter) (now : Int) (db : DB) (p : String)
    (fd : Option Bool) (q : String) (h : q ≠ p) :
    getAccount (reclaimSingleAccount cfg chain submit now db p fd).2 q =
      getAccount db q := by
  simp only [reclaimSingleAccount]
  split
  · exact checkEligibility_frame_ne cfg chain now db p q h
  · rw [reclaimBody_frame_ne cfg chain submit now _ p _ _ q h]
    exact checkEligibility_frame_ne cfg chain now db p q h

/-- A reclaim never touches a Reclaimed row: for the target address it
refuses before writing, for any other address by the frame. -/
theorem reclaimOne_frame_reclaimed (cfg : Config) (chain : Chain)
    (submit : Submitter) (now : Int) (db : DB) (p : String)
    (fd : Option Bool) (q : String) (r : TrackedAccount)
    (hr : getAccount db q = some r)
    (hst : r.status = AccountStatus.reclaimed) :
    getAccount (reclaimSingleAccount cfg chain submit now db p fd).2 q =
      some r := by
  by_cases hpq : q = p
  · subst hpq
    unfold reclaimSingleAccount
    rw [checkEligibility_reclaimed cfg chain now db q r hr hst]
    simp [hr]
  · rw [reclaimOne_frame_ne cfg chain submit now db p fd q hpq]
    exact hr

/-- The sequential reclaim loop never touches a Reclaimed row. -/
theorem reclaimLoop_frame_reclaimed (cfg : Config) (chain : Chain)
    (submit : Submitter) (now : Int) (dr : Bool) :
    ∀ (ps : List String) (db : DB) (summary : BatchReclaimSummary)
      (q : String) (r : TrackedAccount),
    getAccount db q = some r → r.status = AccountStatus.reclaimed →
    getAccount (reclaimLoop cfg chain submit now dr ps db summary).2 q = some r
  | [], db, summary, q, r => fun hr _ => hr
  | p :: ps, db, summary, q, r => by
    intro hr hst
    unfold reclaimLoop
    exact reclaimLoop_frame_reclaimed cfg chain submit now dr ps _ _ q r
      (reclaimOne_frame_reclaimed cfg chain submit now db p (some dr) q r hr hst)
      hst

/-- The single-account reconciliation never touches a Reclaimed row. -/
theorem checkSingleAccount_frame_reclaimed (chain : Chain) (now : Int)
    (db : DB) (p q : String) (r : TrackedAccount)
    (hr : getAccount db q = some r)
    (hst : r.status = AccountStatus.reclaimed) :
    getAccount (checkSingleAccount chain now db p).2 q = some r := by
  rcases hga : getAccount db p with _ | account
  · simp only [checkSingleAccount, hga]
    exact hr
  · rcases hdet : detectStatusChange account (chain p) with _ | sc
    · simp only [checkSingleAccount, hga, hdet]
      exact hr
    · by_cases hpq : q = p
      · subst hpq
        rw [hga] at hr
        have hacct : account = r := Option.some.inj hr
        subst hacct
        rw [show detectStatusChange account (chain q) = none from by
          unfold detectStatusChange; simp [hst]] at hdet
        cases hdet
      · simp only [checkSingleAccount, hga, hdet]
        split
        · rw [getAccount_updateRent_ne _ p _ now q hpq,
            getAccount_updateStatus_ne _ p _ _ now q hpq]
          exact hr
        · rw [getAccount_updateStatus_ne _ p _ _ now q hpq]
          exact hr

/-- The batch reconciliation never touches a Reclaimed row (unique
addresses keep it out of the snapshot). -/
theorem checkAllAccounts_frame_reclaimed (chain : Chain) (now : Int)
    (db : DB) (q : String) (r : TrackedAccount) (hwf : db.WF)
    (hr : getAccount db q = some r)
    (hst : r.status = AccountStatus.reclaimed) :
    getAccount (checkAllAccounts chain now db).2 q = some r := by
  have hnotin : ∀ b ∈ db.accounts.filter (fun a =>
      a.status = AccountStatus.active ∨ a.status = AccountStatus.inactive),
      b.pubkey ≠ q := by
    intro b hb hbq
    have hmem := (List.mem_filter.1 hb).1
    have hstatus := (List.mem_filter.1 hb).2
    have : getAccount db b.pubkey = some b := getAccount_of_mem_wf db hwf b hmem
    rw [hbq, hr] at this
    cases this
    simp [hst] at hstatus
  simp only [checkAllAccounts]
  rw [(monitorLoop_frame chain now _ db q hnotin).1]
  exact hr

/-- The candidate loop of discovery never touches a present row. -/
theorem discoverCandidates_frame (chain : Chain) (now : Int) (sig : SigInfo) :
    ∀ (cs : List String) (st : DiscState) (q : String) (r : TrackedAccount),
    getAccount st.db q = some r →
    getAccount (discoverCandidates chain now sig cs st).db q = some r
  | [], st, q, r => fun hr => hr
  | c :: cs, st, q, r => by
    intro hr
    unfold discoverCandidates
    split
    · exact discoverCandidates_frame chain now sig cs st q r hr
    · split
      · exact discoverCandidates_frame chain now sig cs _ q r hr
      · next hmem hnone =>
        refine discoverCandidates_frame chain now sig cs _ q r ?_
        show getAccount (upsertAccount st.db _) q = some r
        refine getAccount_upsert_fresh st.db _ q r ?_ hr
        show getAccount st.db c = none
        simpa using hnone

/-- The discovery scan never touches a present row. -/
theorem discoverLoop_frame (fetch : TxFetch) (chain : Chain) (now : Int) :
    ∀ (sigs : List SigInfo) (st : DiscState) (q : String) (r : TrackedAccount),
    getAccount st.db q = some r →
    getAccount (discoverLoop fetch chain now sigs st).db q = some r
  | [], st, q, r => fun hr => hr
  | sig :: rest, st, q, r => by
    intro hr
    unfold discoverLoop
    cases fetch sig.signature with
    | none => exact discoverLoop_frame fetch chain now rest st q r hr
    | some candidates =>
      exact discoverLoop_frame fetch chain now rest _ q r
        (discoverCandidates_frame chain now sig candidates st q r hr)

/-- A tracked Reclaimed account with its successful log row. -/
def reclaimedAcctEx : TrackedAccount :=
  { pubkey := "RCL", createdAt := 0, sponsoredTxSignature := "sig0",
    accountType := AccountType.system, rentLamports := 0,
    status := AccountStatus.reclaimed, lastCheckedAt := 0,
    closedAt := some 0, programOwner := some SYSTEM_PROGRAM_ID,
    dataSize := none, notes := none }

/-- Store holding the Reclaimed account and its success row. -/
def dbReclaimedEx : DB :=
  ⟨[reclaimedAcctEx], [⟨"RCL", "SIG", 5, 0, true, none, "TREASURY"⟩], [], []⟩

/-- Claim C10, counterexample.  `addToWhitelist` unconditionally
overwrites the stored status — including a Reclaimed one — with
Whitelisted, so Reclaimed is not a hard terminal state against the
allow-list mutator. -/
theorem c10_whitelist_overrides_reclaimed :
    statusOf dbReclaimedEx "RCL" = some AccountStatus.reclaimed ∧
    statusOf ((Op.opWhitelistAdd "RCL" none 1).apply dbReclaimedEx) "RCL" =
      some AccountStatus.whitelisted := by
  decide

/-- Claim C10, amended: Reclaimed is terminal for every core operation
*except* the allow-list add — Reconciliation (batch and single), the
Reclaim Executor (single and batch), discovery, manual adds, the
eligibility check, allow-list removal and deny-list add all leave a
Reclaimed row entirely unchanged (given unique addresses) — while
`addToWhitelist` overwrites the status of any tracked address,
Reclaimed included, with Whitelisted. -/
theorem c10_amended_reclaimed_preserved :
    (∀ (op : Op) (db : DB) (q : String) (r : TrackedAccount), db.WF →
      op.isWhitelistAdd = false →
      getAccount db q = some r → r.status = AccountStatus.reclaimed →
      getAccount (op.apply db) q = some r) ∧
    (∀ (p : String) (reason : Option String) (now : Int) (db : DB),
      statusOf (addToWhitelist db p reason now) p =
        (statusOf db p).map (fun _ => AccountStatus.whitelisted)) := by
  constructor
  · intro op db q r hwf hop hr hst
    cases op with
    | opDiscover sponsor fetch chain now sigs =>
      cases sponsor with
      | none => exact hr
      | some sp =>
        exact discoverLoop_frame fetch chain now sigs ⟨[], 0, 0, db⟩ q r hr
    | opManualAdd chain now p sig =>
      show getAccount (addAccountManually chain now db p sig).2 q = some r
      unfold addAccountManually
      cases hga : getAccount db p with
      | some existing => exact hr
      | none =>
        refine getAccount_upsert_fresh db _ q r ?_ hr
        exact hga
    | opMonitorAll chain now =>
      exact checkAllAccounts_frame_reclaimed chain now db q r hwf hr hst
    | opMonitorOne chain now p =>
      exact checkSingleAccount_frame_reclaimed chain now db p q r hr hst
    | opEligCheck cfg chain now p =>
      show getAccount (checkEligibility cfg chain now db p).2 q = some r
      by_cases hpq : q = p
      · subst hpq
        rw [checkEligibility_reclaimed cfg chain now db q r hr hst]
        exact hr
      · rw [checkEligibility_frame_ne cfg chain now db p q hpq]
        exact hr
    | opReclaimOne cfg chain submit now p fd =>
      exact reclaimOne_frame_reclaimed cfg chain submit now db p fd q r hr hst
    | opReclaimAllEligible cfg chain submit now fd =>
      exact reclaimLoop_frame_reclaimed cfg chain submit now _ _ db _ q r hr hst
    | opReclaimMultiple cfg chain submit now ps fd =>
      exact reclaimLoop_frame_reclaimed cfg chain submit now _ ps db _ q r hr hst
    | opWhitelistAdd p reason now => cases hop
    | opWhitelistRemove p => exact hr
    | opBlacklistAdd p reason now => exact hr
  · intro p reason now db
    unfold addToWhitelist
    rw [statusOf_updateStatus]
    have hsame : statusOf
        { db with
          whitelist := db.whitelist.filter (fun e => e.pubkey ≠ p) ++
            [⟨p, reason, now⟩] } p = statusOf db p := rfl
    rw [hsame]
    cases statusOf db p <;> simp

/-- Witness for `c10_amended_reclaimed_preserved`: a deny-list add and
an allow-list add against the Reclaimed fixture. -/
theorem c10_amended_reclaimed_preserved_witness :
    getAccount ((Op.opBlacklistAdd "RCL" none 1).apply dbReclaimedEx) "RCL" =
      some reclaimedAcctEx ∧
    statusOf (addToWhitelist dbReclaimedEx "RCL" none 1) "RCL" =
      (statusOf dbReclaimedEx "RCL").map (fun _ => AccountStatus.whitelisted) := by
  constructor
  · exact c10_amended_reclaimed_preserved.1 (Op.opBlacklistAdd "RCL" none 1)
      dbReclaimedEx "RCL" reclaimedAcctEx (by decide) (by decide) (by decide)
      (by decide)
  · exact c10_amended_reclaimed_preserved.2 "RCL" none 1 dbReclaimedEx


/-! ## Claim C5 — how a row becomes Reclaimed -/

/-- A rent write never changes any stored status. -/
theorem statusOf_updateRent_eq (db : DB) (p : String) (r : Nat) (now : Int)
    (q : String) :
    statusOf (updateAccountRent db p r now) q = statusOf db q := by
  unfold statusOf
  rw [getAccount_updateRent]
  cases hga : getAccount db q with
  | none => rfl
  | some a => by_cases hqp : a.pubkey = p <;> simp [hqp]

/-- A log append never changes any stored status. -/
theorem statusOf_record_eq (db : DB) (t : ReclaimTransaction) (q : String) :
    statusOf (recordReclaimTransaction db t) q = statusOf db q := rfl

/-- A status write with a non-Reclaimed status never produces a
Reclaimed row that was not already Reclaimed. -/
theorem statusOf_statusWrite_pullback (db : DB) (p : String)
    (s : AccountStatus) (c : Option Int) (now : Int) (q : String)
    (hs : s ≠ AccountStatus.reclaimed)
    (h : statusOf (updateAccountStatus db p s c now) q =
      some AccountStatus.reclaimed) :
    statusOf db q = some AccountStatus.reclaimed := by
  rw [statusOf_updateStatus] at h
  cases hga : statusOf db q with
  | none => rw [hga] at h; cases h
  | some st =>
    rw [hga] at h
    by_cases hqp : q = p
    · simp [hqp] at h
      exact absurd h hs
    · simp [hqp] at h
      rw [h]

/-- A detected status change never proposes Reclaimed. -/
theorem detectStatusChange_newStatus (a : TrackedAccount)
    (info : SolAccountInfo) (sc : StatusChange)
    (h : detectStatusChange a info = some sc) :
    sc.newStatus ≠ AccountStatus.reclaimed := by
  unfold detectStatusChange at h
  split_ifs at h <;> (cases h; simp)

/-- One reconciliation iteration never produces a newly Reclaimed
row. -/
theorem statusOf_monitorApply_pullback (now : Int) (b : TrackedAccount)
    (info : SolAccountInfo) (db : DB) (q : String)
    (h : statusOf (monitorApply now b info db) q =
      some AccountStatus.reclaimed) :
    statusOf db q = some AccountStatus.reclaimed := by
  unfold monitorApply at h
  rcases hdet : detectStatusChange b info with _ | sc <;>
    simp only [hdet] at h
  · split at h
    · rwa [statusOf_updateRent_eq] at h
    · exact h
  · have hns := detectStatusChange_newStatus b info sc hdet
    split at h
    · rw [statusOf_updateRent_eq] at h
      exact statusOf_statusWrite_pullback db b.pubkey _ _ now q hns h
    · exact statusOf_statusWrite_pullback db b.pubkey _ _ now q hns h

/-- The reconciliation loop never produces a newly Reclaimed row. -/
theorem statusOf_monitorLoop_pullback (chain : Chain) (now : Int) :
    ∀ (L : List TrackedAccount) (db : DB) (q : String),
    statusOf (monitorLoop chain now L db).2 q = some AccountStatus.reclaimed →
    statusOf db q = some AccountStatus.reclaimed
  | [], db, q => fun h => h
  | b :: L, db, q => by
    intro h
    rw [monitorLoop_cons] at h
    rcases hdet : detectStatusChange b (chain b.pubkey) with _ | sc <;>
      simp only [hdet] at h <;>
      exact statusOf_monitorApply_pullback now b _ db q
        (statusOf_monitorLoop_pullback chain now L _ q h)

/-- The single-account reconciliation never produces a newly Reclaimed
row. -/
theorem statusOf_checkSingle_pullback (chain : Chain) (now : Int) (db : DB)
    (p q : String)
    (h : statusOf (checkSingleAccount chain now db p).2 q =
      some AccountStatus.reclaimed) :
    statusOf db q = some AccountStatus.reclaimed := by
  rcases hga : getAccount db p with _ | account
  · simpa [checkSingleAccount, hga] using h
  · rcases hdet : detectStatusChange account (chain p) with _ | sc
    · simpa [checkSingleAccount, hga, hdet] using h
    · have hns := detectStatusChange_newStatus account _ sc hdet
      simp only [checkSingleAccount, hga, hdet] at h
      split at h
      · rw [statusOf_updateRent_eq] at h
        exact statusOf_statusWrite_pullback db p _ _ now q hns h
      · exact statusOf_statusWrite_pullback db p _ _ now q hns h

/-- `getAccount` after the update branch of `upsertAccount`. -/
theorem getAccount_upsert_update (db : DB) (a : TrackedAccount) (q : String)
    (hsome : (getAccount db a.pubkey).isSome) :
    getAccount (upsertAccount db a) q =
      (getAccount db q).map (fun b =>
        if b.pubkey = a.pubkey then
          { b with
            rentLamports := a.rentLamports,
            status := a.status,
            lastCheckedAt := a.lastCheckedAt,
            closedAt := a.closedAt.orElse (fun _ => b.closedAt),
            programOwner := a.programOwner.orElse (fun _ => b.programOwner),
            dataSize := a.dataSize.orElse (fun _ => b.dataSize),
            notes := a.notes.orElse (fun _ => b.notes) }
        else b) := by
  unfold upsertAccount
  rw [if_pos hsome]
  exact find?_pubkey_map _
    (fun b => by by_cases hb : b.pubkey = a.pubkey <;> simp [hb]) _ q

/-- Upserting a row whose status is not Reclaimed never produces a
newly Reclaimed row. -/
theorem statusOf_upsert_pullback (db : DB) (a : TrackedAccount) (q : String)
    (ha : a.status ≠ AccountStatus.reclaimed)
    (h : statusOf (upsertAccount db a) q = some AccountStatus.reclaimed) :
    statusOf db q = some AccountStatus.reclaimed := by
  by_cases hsome : (getAccount db a.pubkey).isSome
  · unfold statusOf at h ⊢
    rw [getAccount_upsert_update db a q hsome] at h
    cases hga : getAccount db q with
    | none => rw [hga] at h; cases h
    | some b =>
      rw [hga] at h
      by_cases hb : b.pubkey = a.pubkey
      · simp [hb] at h
        exact absurd h ha
      · simp [hb] at h
        simp [h]
  · unfold statusOf at h ⊢
    unfold upsertAccount at h
    rw [if_neg hsome] at h
    have hfind : getAccount { db with accounts := db.accounts ++ [a] } q =
        (getAccount db q).or (List.find? (fun b => b.pubkey = q) [a]) :=
      List.find?_append
    rw [hfind] at h
    cases hga : getAccount db q with
    | some b =>
      rw [hga] at h
      simpa using h
    | none =>
      rw [hga] at h
      by_cases hq : a.pubkey = q
      · simp [List.find?, hq] at h
        exact absurd h ha
      · simp [List.find?, hq] at h

/-- The row discovery persists is never Reclaimed. -/
theorem discoveredAccount_status (chain : Chain) (now : Int) (sig : SigInfo)
    (c : String) :
    (discoveredAccount chain now sig c).status ≠ AccountStatus.reclaimed := by
  unfold discoveredAccount
  by_cases hex : (chain c).existsOnChain = true <;> simp [hex]

/-- The candidate loop never produces a newly Reclaimed row. -/
theorem statusOf_discoverCandidates_pullback (chain : Chain) (now : Int)
    (sig : SigInfo) :
    ∀ (cs : List String) (st : DiscState) (q : String),
    statusOf (discoverCandidates chain now sig cs st).db q =
      some AccountStatus.reclaimed →
    statusOf st.db q = some AccountStatus.reclaimed
  | [], st, q => fun h => h
  | c :: cs, st, q => by
    intro h
    unfold discoverCandidates at h
    split at h
    · exact statusOf_discoverCandidates_pullback chain now sig cs st q h
    · split at h
      · exact statusOf_discoverCandidates_pullback chain now sig cs
          { st with seen := st.seen ++ [c], existCount := st.existCount + 1 }
          q h
      · exact statusOf_upsert_pullback st.db _ q
          (discoveredAccount_status chain now sig c)
          (statusOf_discoverCandidates_pullback chain now sig cs
            { st with
              seen := st.seen ++ [c],
              newCount := st.newCount + 1,
              db := upsertAccount st.db (discoveredAccount chain now sig c) }
            q h)

/-- The discovery scan never produces a newly Reclaimed row. -/
theorem statusOf_discoverLoop_pullback (fetch : TxFetch) (chain : Chain)
    (now : Int) :
    ∀ (sigs : List SigInfo) (st : DiscState) (q : String),
    statusOf (discoverLoop fetch chain now sigs st).db q =
      some AccountStatus.reclaimed →
    statusOf st.db q = some AccountStatus.reclaimed
  | [], st, q => fun h => h
  | sig :: rest, st, q => by
    intro h
    unfold discoverLoop at h
    cases hfetch : fetch sig.signature with
    | none =>
      rw [hfetch] at h
      exact statusOf_discoverLoop_pullback fetch chain now rest st q h
    | some candidates =>
      rw [hfetch] at h
      exact statusOf_discoverCandidates_pullback chain now sig candidates st q
        (statusOf_discoverLoop_pullback fetch chain now rest _ q h)

/-- The eligibility check never produces a newly Reclaimed row. -/
theorem statusOf_checkElig_pullback (cfg : Config) (chain : Chain)
    (now : Int) (db : DB) (p q : String)
    (h : statusOf (checkEligibility cfg chain now db p).2 q =
      some AccountStatus.reclaimed) :
    statusOf db q = some AccountStatus.reclaimed := by
  rcases checkEligibility_db cfg chain now db p with hdb | hdb <;> rw [hdb] at h
  · exact h
  · exact statusOf_statusWrite_pullback db p _ _ now q (by decide) h

/-- The single reclaim: a newly Reclaimed row can only be the target
address, and only on a successful live run. -/
theorem statusOf_reclaimOne_char (cfg : Config) (chain : Chain)
    (submit : Submitter) (now : Int) (db : DB) (p : String)
    (fd : Option Bool) (q : String)
    (h : statusOf (reclaimSingleAccount cfg chain submit now db p fd).2 q =
      some AccountStatus.reclaimed) :
    statusOf db q = some AccountStatus.reclaimed ∨
      (q = p ∧
        (reclaimSingleAccount cfg chain submit now db p fd).1.success = true ∧
        (reclaimSingleAccount cfg chain submit now db p fd).1.dryRun = false) := by
  simp only [reclaimSingleAccount] at h ⊢
  by_cases he : (!(checkEligibility cfg chain now db p).1.eligible) = true
  · rw [if_pos he] at h ⊢
    exact Or.inl (statusOf_checkElig_pullback cfg chain now db p q h)
  · rw [if_neg he] at h ⊢
    simp only [reclaimBody] at h ⊢
    by_cases hz : (if (chain p).existsOnChain = true then (chain p).lamports
        else ((checkEligibility cfg chain now db p).1.account.getD
          default).rentLamports) = 0
    · rw [if_pos hz] at h ⊢
      exact Or.inl (statusOf_checkElig_pullback cfg chain now db p q h)
    · rw [if_neg hz] at h ⊢
      by_cases hs : (closeAccountAndReclaimRent (chain p)
          (fd.getD cfg.dryRun) (submit p)).success = true
      · rw [if_pos hs] at h ⊢
        by_cases hd : (fd.getD cfg.dryRun) = true
        · rw [if_pos hd] at h ⊢
          rw [statusOf_record_eq] at h
          exact Or.inl (statusOf_checkElig_pullback cfg chain now db p q h)
        · rw [if_neg hd] at h ⊢
          by_cases hqp : q = p
          · refine Or.inr ⟨hqp, rfl, ?_⟩
            simp only [Bool.not_eq_true] at hd
            exact hd
          · rw [statusOf_updateRent_eq, statusOf_updateStatus] at h
            rw [statusOf_record_eq] at h
            cases hga : statusOf (checkEligibility cfg chain now db p).2 q with
            | none => rw [hga] at h; cases h
            | some st =>
              rw [hga] at h
              simp [hqp] at h
              refine Or.inl (statusOf_checkElig_pullback cfg chain now db p q ?_)
              rw [hga, h]
      · rw [if_neg hs] at h ⊢
        rw [statusOf_record_eq] at h
        exact Or.inl (statusOf_checkElig_pullback cfg chain now db p q h)

/-- Every path of the single reclaim reports the mode it ran in. -/
theorem reclaimOne_dryRun (cfg : Config) (chain : Chain)
    (submit : Submitter) (now : Int) (db : DB) (p : String)
    (fd : Option Bool) :
    (reclaimSingleAccount cfg chain submit now db p fd).1.dryRun =
      fd.getD cfg.dryRun := by
  simp only [reclaimSingleAccount, reclaimBody]
  split_ifs <;> rfl

/-- The sequential reclaim loop: a newly Reclaimed row must be one of
the processed addresses, on a live run. -/
theorem statusOf_reclaimLoop_char (cfg : Config) (chain : Chain)
    (submit : Submitter) (now : Int) (dr : Bool) :
    ∀ (ps : List String) (db : DB) (summary : BatchReclaimSummary)
      (q : String),
    statusOf (reclaimLoop cfg chain submit now dr ps db summary).2 q =
      some AccountStatus.reclaimed →
    statusOf db q = some AccountStatus.reclaimed ∨ (q ∈ ps ∧ dr = false)
  | [], db, summary, q => fun h => Or.inl h
  | p :: ps, db, summary, q => by
    intro h
    unfold reclaimLoop at h
    rcases statusOf_reclaimLoop_char cfg chain submit now dr ps _ _ q h with
      hone | ⟨hmem, hdr⟩
    · rcases statusOf_reclaimOne_char cfg chain submit now db p (some dr) q
        hone with hdb | ⟨hqp, _, hdr⟩
      · exact Or.inl hdb
      · refine Or.inr ⟨hqp ▸ List.mem_cons_self p ps, ?_⟩
        rw [reclaimOne_dryRun] at hdr
        simpa using hdr
    · exact Or.inr ⟨List.mem_cons_of_mem p hmem, hdr⟩


/-- Chain view where the Active fixture account still exists,
system-owned, holding a tiny balance below the reclaim threshold. -/
def chainActiveSmallEx : Chain := fun p =>
  if p = "ACT" then ⟨true, 50, SYSTEM_PROGRAM_ID, 0⟩
  else ⟨false, 0, SYSTEM_PROGRAM_ID, 0⟩

/-- Claim C5, counterexample.  A tracked *Active* account that still
exists on-chain with a small balance passes eligibility (no `closedAt`
means the dormancy check is skipped, and the stored rent clears the
threshold), and a successful live reclaim moves it directly from
Active to Reclaimed — Closed is not the only predecessor status. -/
theorem c5_active_to_reclaimed_directly :
    statusOf dbActiveEx "ACT" = some AccountStatus.active ∧
    (reclaimSingleAccount cfgEx chainActiveSmallEx submitOkEx 0 dbActiveEx
      "ACT" (some false)).1.success = true ∧
    statusOf (reclaimSingleAccount cfgEx chainActiveSmallEx submitOkEx 0
      dbActiveEx "ACT" (some false)).2 "ACT" =
      some AccountStatus.reclaimed := by
  decide

/-- Claim C5, amended: an account becomes Reclaimed only through a
successful live `reclaimSingleAccount` on its own address — no other
core operation ever produces a newly Reclaimed row, and within the
batch variants a newly Reclaimed address must be among the processed
addresses on a live run — but the prior status need not be Closed: any
non-Reclaimed status that passes eligibility (e.g. Active with a small
on-chain balance) transitions directly to Reclaimed. -/
theorem c5_amended_reclaimed_only_via_executor :
    (∀ (op : Op) (db : DB) (q : String), op.isReclaimOp = false →
      statusOf (op.apply db) q = some AccountStatus.reclaimed →
      statusOf db q = some AccountStatus.reclaimed) ∧
    (∀ (cfg : Config) (chain : Chain) (submit : Submitter) (now : Int)
      (db : DB) (p : String) (fd : Option Bool) (q : String),
      statusOf (reclaimSingleAccount cfg chain submit now db p fd).2 q =
        some AccountStatus.reclaimed →
      statusOf db q = some AccountStatus.reclaimed ∨
        (q = p ∧
          (reclaimSingleAccount cfg chain submit now db p fd).1.success =
            true ∧
          (reclaimSingleAccount cfg chain submit now db p fd).1.dryRun =
            false)) ∧
    (∀ (cfg : Config) (chain : Chain) (submit : Submitter) (now : Int)
      (db : DB) (ps : List String) (fd : Option Bool) (q : String),
      statusOf (reclaimMultiple cfg chain submit now db ps fd).2 q =
        some AccountStatus.reclaimed →
      statusOf db q = some AccountStatus.reclaimed ∨
        (q ∈ ps ∧ fd.getD cfg.dryRun = false)) ∧
    (∀ (cfg : Config) (chain : Chain) (submit : Submitter) (now : Int)
      (db : DB) (fd : Option Bool) (q : String),
      statusOf (reclaimAllEligible cfg chain submit now db fd).2 q =
        some AccountStatus.reclaimed →
      statusOf db q = some AccountStatus.reclaimed ∨
        (q ∈ (getEligibleAccounts db cfg.minDormancyDays
            cfg.minReclaimLamports now).map (fun a => a.pubkey) ∧
          fd.getD cfg.dryRun = false)) := by
  refine ⟨?_, ?_, ?_, ?_⟩
  · intro op db q hop h
    cases op with
    | opDiscover sponsor fetch chain now sigs =>
      cases sponsor with
      | none => exact h
      | some sp =>
        exact statusOf_discoverLoop_pullback fetch chain now sigs
          ⟨[], 0, 0, db⟩ q h
    | opManualAdd chain now p sig =>
      rcases hga : getAccount db p with _ | existing
      · simp only [Op.apply, addAccountManually, hga] at h
        refine statusOf_upsert_pullback db _ q ?_ h
        by_cases hex : (chain p).existsOnChain = true <;> simp [hex]
      · simp only [Op.apply, addAccountManually, hga] at h
        exact h
    | opMonitorAll chain now =>
      simp only [Op.apply, checkAllAccounts] at h
      exact statusOf_monitorLoop_pullback chain now _ db q h
    | opMonitorOne chain now p =>
      exact statusOf_checkSingle_pullback chain now db p q h
    | opEligCheck cfg chain now p =>
      exact statusOf_checkElig_pullback cfg chain now db p q h
    | opReclaimOne cfg chain submit now p fd => cases hop
    | opReclaimAllEligible cfg chain submit now fd => cases hop
    | opReclaimMultiple cfg chain submit now ps fd => cases hop
    | opWhitelistAdd p reason now =>
      simp only [Op.apply] at h
      unfold addToWhitelist at h
      have := statusOf_statusWrite_pullback _ p AccountStatus.whitelisted
        none now q (by decide) h
      exact this
    | opWhitelistRemove p => exact h
    | opBlacklistAdd p reason now => exact h
  · intro cfg chain submit now db p fd q h
    exact statusOf_reclaimOne_char cfg chain submit now db p fd q h
  · intro cfg chain submit now db ps fd q h
    simp only [reclaimMultiple] at h
    exact statusOf_reclaimLoop_char cfg chain submit now _ ps db _ q h
  · intro cfg chain submit now db fd q h
    simp only [reclaimAllEligible] at h
    exact statusOf_reclaimLoop_char cfg chain submit now _ _ db _ q h

/-- Witness for `c5_amended_reclaimed_only_via_executor`: a deny-list
add on the Reclaimed fixture (no new Reclaimed state), and the direct
Active→Reclaimed transition recognized as a successful live reclaim. -/
theorem c5_amended_reclaimed_only_via_executor_witness :
    statusOf dbReclaimedEx "RCL" = some AccountStatus.reclaimed ∧
    (statusOf dbActiveEx "ACT" = some AccountStatus.reclaimed ∨
      ("ACT" = "ACT" ∧
        (reclaimSingleAccount cfgEx chainActiveSmallEx submitOkEx 0
          dbActiveEx "ACT" (some false)).1.success = true ∧
        (reclaimSingleAccount cfgEx chainActiveSmallEx submitOkEx 0
          dbActiveEx "ACT" (some false)).1.dryRun = false)) := by
  constructor
  · exact c5_amended_reclaimed_only_via_executor.1
      (Op.opBlacklistAdd "RCL" none 1) dbReclaimedEx "RCL" (by decide)
      (by decide)
  · exact c5_amended_reclaimed_only_via_executor.2.1 cfgEx
      chainActiveSmallEx submitOkEx 0 dbActiveEx "ACT" (some false) "ACT"
      (by decide)


/-! ## Claim C4 — the Reclaimed invariant

`status = Reclaimed ⇒ depositBalance = 0 ∧ ∃ successful
ReclaimTransaction row` as an inductive invariant of the whole
operation set, starting from the empty store. -/

/-- The claimed invariant over the state store. -/
def ReclaimedInv (db : DB) : Prop :=
  ∀ a ∈ db.accounts, a.status = AccountStatus.reclaimed →
    a.rentLamports = 0 ∧
    ∃ t ∈ db.reclaimLog, t.accountPubkey = a.pubkey ∧ t.success = true

/-- A pubkey-preserving row map keeps addresses unique. -/
theorem wf_map_pubkey (db : DB) (g : TrackedAccount → TrackedAccount)
    (hg : ∀ a, (g a).pubkey = a.pubkey) (hwf : db.WF) :
    ({ db with accounts := db.accounts.map g } : DB).WF := by
  refine List.Pairwise.map g ?_ hwf
  intro a b hab
  rw [hg a, hg b]
  exact hab

/-- Status writes keep addresses unique. -/
theorem wf_updateStatus (db : DB) (p : String) (s : AccountStatus)
    (c : Option Int) (now : Int) (hwf : db.WF) :
    (updateAccountStatus db p s c now).WF :=
  wf_map_pubkey db _ (fun a => by by_cases h : a.pubkey = p <;> simp [h]) hwf

/-- Rent writes keep addresses unique. -/
theorem wf_updateRent (db : DB) (p : String) (r : Nat) (now : Int)
    (hwf : db.WF) : (updateAccountRent db p r now).WF :=
  wf_map_pubkey db _ (fun a => by by_cases h : a.pubkey = p <;> simp [h]) hwf

/-- Upserts keep addresses unique. -/
theorem wf_upsert (db : DB) (a : TrackedAccount) (hwf : db.WF) :
    (upsertAccount db a).WF := by
  unfold upsertAccount
  split
  · exact wf_map_pubkey db _
      (fun b => by by_cases h : b.pubkey = a.pubkey <;> simp [h]) hwf
  · next hnone =>
    show List.Pairwise _ (db.accounts ++ [a])
    rw [List.pairwise_append]
    refine ⟨hwf, List.pairwise_singleton _ _, ?_⟩
    intro b hb c hc
    have hc2 : c = a := by simpa using hc
    have hnone2 : getAccount db a.pubkey = none :=
      Option.not_isSome_iff_eq_none.1 (by simpa using hnone)
    have hb2 := List.find?_eq_none.1 hnone2 b hb
    rw [hc2]
    simpa using hb2

/-- With unique addresses, two member rows with one pubkey coincide. -/
theorem mem_unique_of_wf (db : DB) (hwf : db.WF) (a b : TrackedAccount)
    (ha : a ∈ db.accounts) (hb : b ∈ db.accounts)
    (hab : a.pubkey = b.pubkey) : a = b := by
  have h1 := getAccount_of_mem_wf db hwf a ha
  have h2 := getAccount_of_mem_wf db hwf b hb
  rw [hab, h2] at h1
  exact (Option.some.inj h1).symm

/-- One reconciliation iteration keeps addresses unique. -/
theorem wf_monitorApply (now : Int) (b : TrackedAccount)
    (info : SolAccountInfo) (db : DB) (hwf : db.WF) :
    (monitorApply now b info db).WF := by
  unfold monitorApply
  rcases detectStatusChange b info with _ | sc <;> dsimp only
  · split
    · exact wf_updateRent db _ _ now hwf
    · exact hwf
  · split
    · exact wf_updateRent _ _ _ now (wf_updateStatus db _ _ _ now hwf)
    · exact wf_updateStatus db _ _ _ now hwf

/-- The reconciliation loop keeps addresses unique. -/
theorem wf_monitorLoop (chain : Chain) (now : Int) :
    ∀ (L : List TrackedAccount) (db : DB), db.WF →
    (monitorLoop chain now L db).2.WF
  | [], db => fun hwf => hwf
  | a :: L, db => by
    intro hwf
    rw [monitorLoop_cons]
    rcases detectStatusChange a (chain a.pubkey) with _ | sc <;> dsimp only <;>
      exact wf_monitorLoop chain now L _ (wf_monitorApply now a _ db hwf)

/-- The eligibility check keeps addresses unique. -/
theorem wf_checkElig (cfg : Config) (chain : Chain) (now : Int) (db : DB)
    (p : String) (hwf : db.WF) :
    (checkEligibility cfg chain now db p).2.WF := by
  rcases checkEligibility_db cfg chain now db p with hdb | hdb <;> rw [hdb]
  · exact hwf
  · exact wf_updateStatus db p _ _ now hwf

/-- The single reclaim keeps addresses unique. -/
theorem wf_reclaimOne (cfg : Config) (chain : Chain) (submit : Submitter)
    (now : Int) (db : DB) (p : String) (fd : Option Bool) (hwf : db.WF) :
    (reclaimSingleAccount cfg chain submit now db p fd).2.WF := by
  have hwfe := wf_checkElig cfg chain now db p hwf
  simp only [reclaimSingleAccount, reclaimBody]
  split_ifs <;>
    first
      | exact hwfe
      | exact wf_updateRent _ p 0 now (wf_updateStatus _ p _ none now hwfe)

/-- The reclaim loop keeps addresses unique. -/
theorem wf_reclaimLoop (cfg : Config) (chain : Chain) (submit : Submitter)
    (now : Int) (dr : Bool) :
    ∀ (ps : List String) (db : DB) (summary : BatchReclaimSummary), db.WF →
    (reclaimLoop cfg chain submit now dr ps db summary).2.WF
  | [], db, summary => fun hwf => hwf
  | p :: ps, db, summary => fun hwf => by
    unfold reclaimLoop
    exact wf_reclaimLoop cfg chain submit now dr ps _ _
      (wf_reclaimOne cfg chain submit now db p (some dr) hwf)

/-- The discovery candidate loop keeps addresses unique. -/
theorem wf_discoverCandidates (chain : Chain) (now : Int) (sig : SigInfo) :
    ∀ (cs : List String) (st : DiscState), st.db.WF →
    (discoverCandidates chain now sig cs st).db.WF
  | [], st => fun hwf => hwf
  | c :: cs, st => fun hwf => by
    unfold discoverCandidates
    split
    · exact wf_discoverCandidates chain now sig cs st hwf
    · split
      · exact wf_discoverCandidates chain now sig cs _ hwf
      · exact wf_discoverCandidates chain now sig cs _
          (wf_upsert st.db _ hwf)

/-- The discovery scan keeps addresses unique. -/
theorem wf_discoverLoop (fetch : TxFetch) (chain : Chain) (now : Int) :
    ∀ (sigs : List SigInfo) (st : DiscState), st.db.WF →
    (discoverLoop fetch chain now sigs st).db.WF
  | [], st => fun hwf => hwf
  | sig :: rest, st => fun hwf => by
    unfold discoverLoop
    cases fetch sig.signature with
    | none => exact wf_discoverLoop fetch chain now rest st hwf
    | some candidates =>
      exact wf_discoverLoop fetch chain now rest _
        (wf_discoverCandidates chain now sig candidates st hwf)

/-- The single-account reconciliation keeps addresses unique. -/
theorem wf_checkSingle (chain : Chain) (now : Int) (db : DB) (p : String)
    (hwf : db.WF) : (checkSingleAccount chain now db p).2.WF := by
  rcases hga : getAccount db p with _ | account
  · simp only [checkSingleAccount, hga]
    exact hwf
  · rcases hdet : detectStatusChange account (chain p) with _ | sc
    · simp only [checkSingleAccount, hga, hdet]
      exact hwf
    · simp only [checkSingleAccount, hga, hdet]
      split
      · exact wf_updateRent _ p _ now (wf_updateStatus db p _ _ now hwf)
      · exact wf_updateStatus db p _ _ now hwf

/-- Every core operation keeps addresses unique. -/
theorem wf_apply (op : Op) (db : DB) (hwf : db.WF) : (op.apply db).WF := by
  cases op with
  | opDiscover sponsor fetch chain now sigs =>
    cases sponsor with
    | none => exact hwf
    | some sp => exact wf_discoverLoop fetch chain now sigs ⟨[], 0, 0, db⟩ hwf
  | opManualAdd chain now p sig =>
    rcases hga : getAccount db p with _ | existing <;>
      simp only [Op.apply, addAccountManually, hga]
    · exact wf_upsert db _ hwf
    · exact hwf
  | opMonitorAll chain now =>
    simp only [Op.apply, checkAllAccounts]
    exact wf_monitorLoop chain now _ db hwf
  | opMonitorOne chain now p => exact wf_checkSingle chain now db p hwf
  | opEligCheck cfg chain now p => exact wf_checkElig cfg chain now db p hwf
  | opReclaimOne cfg chain submit now p fd =>
    exact wf_reclaimOne cfg chain submit now db p fd hwf
  | opReclaimAllEligible cfg chain submit now fd =>
    exact wf_reclaimLoop cfg chain submit now _ _ db _ hwf
  | opReclaimMultiple cfg chain submit now ps fd =>
    exact wf_reclaimLoop cfg chain submit now _ ps db _ hwf
  | opWhitelistAdd p reason now =>
    exact wf_updateStatus _ p _ none now hwf
  | opWhitelistRemove p => exact hwf
  | opBlacklistAdd p reason now => exact hwf


/-- A status write with a non-Reclaimed status preserves the
invariant. -/
theorem inv_updateStatus (db : DB) (p : String) (s : AccountStatus)
    (c : Option Int) (now : Int) (hs : s ≠ AccountStatus.reclaimed)
    (hinv : ReclaimedInv db) :
    ReclaimedInv (updateAccountStatus db p s c now) := by
  intro a2 ha2 hst
  rcases List.mem_map.1 ha2 with ⟨a1, ha1, hfa⟩
  subst hfa
  by_cases hp : a1.pubkey = p
  · rw [if_pos hp] at hst
    exact absurd hst hs
  · rw [if_neg hp] at hst ⊢
    exact hinv a1 ha1 hst

/-- After a non-Reclaimed status write, no row of the written address
is Reclaimed. -/
theorem updateStatus_guard (db : DB) (p : String) (s : AccountStatus)
    (c : Option Int) (now : Int) (hs : s ≠ AccountStatus.reclaimed) :
    ∀ a1 ∈ (updateAccountStatus db p s c now).accounts, a1.pubkey = p →
      a1.status ≠ AccountStatus.reclaimed := by
  intro a1 ha1 hap
  rcases List.mem_map.1 ha1 with ⟨a0, ha0, hfa⟩
  subst hfa
  by_cases hp : a0.pubkey = p
  · rw [if_pos hp]
    exact hs
  · rw [if_neg hp] at hap
    exact absurd hap hp

/-- A rent write preserves the invariant when no row of the written
address is Reclaimed. -/
theorem inv_updateRent (db : DB) (p : String) (r : Nat) (now : Int)
    (hguard : ∀ a1 ∈ db.accounts, a1.pubkey = p →
      a1.status ≠ AccountStatus.reclaimed)
    (hinv : ReclaimedInv db) :
    ReclaimedInv (updateAccountRent db p r now) := by
  intro a2 ha2 hst
  rcases List.mem_map.1 ha2 with ⟨a1, ha1, hfa⟩
  subst hfa
  by_cases hp : a1.pubkey = p
  · rw [if_pos hp] at hst
    exact absurd hst (hguard a1 ha1 hp)
  · rw [if_neg hp] at hst ⊢
    exact hinv a1 ha1 hst

/-- A log append preserves the invariant. -/
theorem inv_record (db : DB) (t : ReclaimTransaction)
    (hinv : ReclaimedInv db) :
    ReclaimedInv (recordReclaimTransaction db t) := by
  intro a2 ha2 hst
  rcases hinv a2 ha2 hst with ⟨hr, u, hu, hup, hus⟩
  exact ⟨hr, u, List.mem_append_left _ hu, hup, hus⟩

/-- Inserting a fresh non-Reclaimed row preserves the invariant. -/
theorem inv_upsert_fresh (db : DB) (a : TrackedAccount)
    (hfresh : getAccount db a.pubkey = none)
    (ha : a.status ≠ AccountStatus.reclaimed) (hinv : ReclaimedInv db) :
    ReclaimedInv (upsertAccount db a) := by
  have hins : upsertAccount db a = { db with accounts := db.accounts ++ [a] } := by
    unfold upsertAccount
    rw [hfresh]
    rfl
  rw [hins]
  intro a2 ha2 hst
  rcases List.mem_append.1 ha2 with h1 | h1
  · exact hinv a2 h1 hst
  · have h2 : a2 = a := by simpa using h1
    rw [h2] at hst
    exact absurd hst ha

/-- The success path of the executor establishes the invariant: the
target rows get balance 0 while the appended row is its witness, and
untouched rows inherit theirs. -/
theorem inv_reclaimSuccess (db : DB) (p : String) (now : Int)
    (t : ReclaimTransaction) (htp : t.accountPubkey = p)
    (hts : t.success = true) (hinv : ReclaimedInv db) :
    ReclaimedInv (updateAccountRent (updateAccountStatus
      (recordReclaimTransaction db t) p AccountStatus.reclaimed none now)
      p 0 now) := by
  intro a2 ha2 hst
  rcases List.mem_map.1 ha2 with ⟨a1, ha1, hfa1⟩
  rcases List.mem_map.1 ha1 with ⟨a0, ha0, hfa0⟩
  subst hfa1
  subst hfa0
  by_cases hp : a0.pubkey = p
  · constructor
    · simp [hp]
    · refine ⟨t, List.mem_append_right _ (by simp), ?_, hts⟩
      simp [hp, htp]
  · simp only [if_neg hp] at hst ⊢
    rcases hinv a0 ha0 hst with ⟨hr, u, hu, hup, hus⟩
    exact ⟨hr, u, List.mem_append_left _ hu, hup, hus⟩

/-- One reconciliation iteration preserves the invariant (on a store
with unique addresses, over a snapshot row that is not Reclaimed). -/
theorem inv_monitorApply (now : Int) (b : TrackedAccount)
    (info : SolAccountInfo) (db : DB) (hwf : db.WF)
    (hb : getAccount db b.pubkey = some b)
    (hbs : b.status ≠ AccountStatus.reclaimed)
    (hinv : ReclaimedInv db) :
    ReclaimedInv (monitorApply now b info db) := by
  have hguard : ∀ a1 ∈ db.accounts, a1.pubkey = b.pubkey →
      a1.status ≠ AccountStatus.reclaimed := by
    intro a1 ha1 hap
    have hga := getAccount_of_mem_wf db hwf a1 ha1
    rw [hap, hb] at hga
    have : b = a1 := Option.some.inj hga
    rw [← this]
    exact hbs
  unfold monitorApply
  rcases hdet : detectStatusChange b info with _ | sc <;> simp only [hdet]
  · split
    · exact inv_updateRent db b.pubkey _ now hguard hinv
    · exact hinv
  · have hns := detectStatusChange_newStatus b info sc hdet
    split
    · exact inv_updateRent _ b.pubkey _ now
        (updateStatus_guard db b.pubkey _ _ now hns)
        (inv_updateStatus db b.pubkey _ _ now hns hinv)
    · exact inv_updateStatus db b.pubkey _ _ now hns hinv

/-- The reconciliation loop preserves the invariant. -/
theorem inv_monitorLoop (chain : Chain) (now : Int) :
    ∀ (L : List TrackedAccount) (db : DB),
    db.WF → ReclaimedInv db →
    L.Pairwise (fun x y => x.pubkey ≠ y.pubkey) →
    (∀ b ∈ L, getAccount db b.pubkey = some b) →
    (∀ b ∈ L, b.status ≠ AccountStatus.reclaimed) →
    ReclaimedInv (monitorLoop chain now L db).2
  | [], db => fun _ hinv _ _ _ => hinv
  | a :: L, db => by
    intro hwf hinv hpw hrow hstat
    have hrec : ReclaimedInv (monitorLoop chain now L
        (monitorApply now a (chain a.pubkey) db)).2 := by
      refine inv_monitorLoop chain now L _
        (wf_monitorApply now a _ db hwf)
        (inv_monitorApply now a _ db hwf (hrow a (List.mem_cons_self a L))
          (hstat a (List.mem_cons_self a L)) hinv)
        (List.pairwise_cons.1 hpw).2 ?_
        (fun b hb => hstat b (List.mem_cons_of_mem a hb))
      intro b hb
      rw [monitorApply_frame now a _ db b.pubkey
        (fun h => (List.pairwise_cons.1 hpw).1 b hb h.symm)]
      exact hrow b (List.mem_cons_of_mem a hb)
    rw [monitorLoop_cons]
    rcases hdet : detectStatusChange a (chain a.pubkey) with _ | sc <;>
      simp only [hdet] <;> exact hrec

/-- The eligibility check preserves the invariant. -/
theorem inv_checkElig (cfg : Config) (chain : Chain) (now : Int) (db : DB)
    (p : String) (hinv : ReclaimedInv db) :
    ReclaimedInv (checkEligibility cfg chain now db p).2 := by
  rcases checkEligibility_db cfg chain now db p with hdb | hdb <;> rw [hdb]
  · exact hinv
  · exact inv_updateStatus db p _ _ now (by decide) hinv

/-- The single reclaim preserves the invariant. -/
theorem inv_reclaimOne (cfg : Config) (chain : Chain) (submit : Submitter)
    (now : Int) (db : DB) (p : String) (fd : Option Bool)
    (hinv : ReclaimedInv db) :
    ReclaimedInv (reclaimSingleAccount cfg chain submit now db p fd).2 := by
  have hinve := inv_checkElig cfg chain now db p hinv
  simp only [reclaimSingleAccount, reclaimBody]
  split_ifs <;>
    first
      | exact hinve
      | exact inv_record _ _ hinve
      | exact inv_reclaimSuccess _ p now _ rfl rfl hinve

/-- The reclaim loop preserves the invariant. -/
theorem inv_reclaimLoop (cfg : Config) (chain : Chain) (submit : Submitter)
    (now : Int) (dr : Bool) :
    ∀ (ps : List String) (db : DB) (summary : BatchReclaimSummary),
    ReclaimedInv db →
    ReclaimedInv (reclaimLoop cfg chain submit now dr ps db summary).2
  | [], db, summary => fun hinv => hinv
  | p :: ps, db, summary => fun hinv => by
    unfold reclaimLoop
    exact inv_reclaimLoop cfg chain submit now dr ps _ _
      (inv_reclaimOne cfg chain submit now db p (some dr) hinv)

/-- The discovery candidate loop preserves the invariant. -/
theorem inv_discoverCandidates (chain : Chain) (now : Int) (sig : SigInfo) :
    ∀ (cs : List String) (st : DiscState), ReclaimedInv st.db →
    ReclaimedInv (discoverCandidates chain now sig cs st).db
  | [], st => fun hinv => hinv
  | c :: cs, st => fun hinv => by
    unfold discoverCandidates
    split
    · exact inv_discoverCandidates chain now sig cs st hinv
    · split
      · exact inv_discoverCandidates chain now sig cs _ hinv
      · next hmem hnone =>
        refine inv_discoverCandidates chain now sig cs _ ?_
        show ReclaimedInv (upsertAccount st.db _)
        refine inv_upsert_fresh st.db _ ?_
          (discoveredAccount_status chain now sig c) hinv
        simpa using hnone

/-- The discovery scan preserves the invariant. -/
theorem inv_discoverLoop (fetch : TxFetch) (chain : Chain) (now : Int) :
    ∀ (sigs : List SigInfo) (st : DiscState), ReclaimedInv st.db →
    ReclaimedInv (discoverLoop fetch chain now sigs st).db
  | [], st => fun hinv => hinv
  | sig :: rest, st => fun hinv => by
    unfold discoverLoop
    cases fetch sig.signature with
    | none => exact inv_discoverLoop fetch chain now rest st hinv
    | some candidates =>
      exact inv_discoverLoop fetch chain now rest _
        (inv_discoverCandidates chain now sig candidates st hinv)

/-- The single-account reconciliation preserves the invariant. -/
theorem inv_checkSingle (chain : Chain) (now : Int) (db : DB) (p : String)
    (hinv : ReclaimedInv db) :
    ReclaimedInv (checkSingleAccount chain now db p).2 := by
  rcases hga : getAccount db p with _ | account
  · simp only [checkSingleAccount, hga]
    exact hinv
  · rcases hdet : detectStatusChange account (chain p) with _ | sc
    · simp only [checkSingleAccount, hga, hdet]
      exact hinv
    · have hns := detectStatusChange_newStatus account _ sc hdet
      simp only [checkSingleAccount, hga, hdet]
      split
      · exact inv_updateRent _ p _ now
          (updateStatus_guard db p _ _ now hns)
          (inv_updateStatus db p _ _ now hns hinv)
      · exact inv_updateStatus db p _ _ now hns hinv

/-- Every core operation preserves the invariant. -/
theorem inv_apply (op : Op) (db : DB) (hwf : db.WF)
    (hinv : ReclaimedInv db) : ReclaimedInv (op.apply db) := by
  cases op with
  | opDiscover sponsor fetch chain now sigs =>
    cases sponsor with
    | none => exact hinv
    | some sp =>
      exact inv_discoverLoop fetch chain now sigs ⟨[], 0, 0, db⟩ hinv
  | opManualAdd chain now p sig =>
    rcases hga : getAccount db p with _ | existing <;>
      simp only [Op.apply, addAccountManually, hga]
    · refine inv_upsert_fresh db _ hga ?_ hinv
      by_cases hex : (chain p).existsOnChain = true <;> simp [hex]
    · exact hinv
  | opMonitorAll chain now =>
    simp only [Op.apply, checkAllAccounts]
    refine inv_monitorLoop chain now _ db hwf hinv (hwf.filter _) ?_ ?_
    · intro b hb
      exact getAccount_of_mem_wf db hwf b (List.mem_filter.1 hb).1
    · intro b hb
      have := (List.mem_filter.1 hb).2
      simp only [decide_eq_true_eq] at this
      rcases this with h | h <;> simp [h]
  | opMonitorOne chain now p => exact inv_checkSingle chain now db p hinv
  | opEligCheck cfg chain now p =>
    exact inv_checkElig cfg chain now db p hinv
  | opReclaimOne cfg chain submit now p fd =>
    exact inv_reclaimOne cfg chain submit now db p fd hinv
  | opReclaimAllEligible cfg chain submit now fd =>
    exact inv_reclaimLoop cfg chain submit now _ _ db _ hinv
  | opReclaimMultiple cfg chain submit now ps fd =>
    exact inv_reclaimLoop cfg chain submit now _ ps db _ hinv
  | opWhitelistAdd p reason now =>
    exact inv_updateStatus _ p _ none now (by decide) hinv
  | opWhitelistRemove p => exact hinv
  | opBlacklistAdd p reason now => exact hinv

/-- Claim C4: in every store reachable from the empty store by core
operations, a Reclaimed account has stored balance 0 and a successful
ReclaimTransaction row for its address; the executor's success path
establishes it and every other operation preserves it. -/
theorem c4_reclaimed_invariant (db : DB) (h : Reachable db) :
    ReclaimedInv db := by
  have hgood : db.WF ∧ ReclaimedInv db := by
    induction h with
    | refl =>
      exact ⟨List.Pairwise.nil, fun a ha => absurd ha (List.not_mem_nil a)⟩
    | tail hsteps hstep ih =>
      rcases hstep with ⟨op, rfl⟩
      exact ⟨wf_apply op _ ih.1, inv_apply op _ ih.1 ih.2⟩
  exact hgood.2

/-- Witness for `c4_reclaimed_invariant`: one deny-list step from the
empty store. -/
theorem c4_reclaimed_invariant_witness :
    ReclaimedInv ((Op.opBlacklistAdd "A" none 0).apply DB.init) :=
  c4_reclaimed_invariant _
    (Relation.ReflTransGen.tail Relation.ReflTransGen.refl
      ⟨Op.opBlacklistAdd "A" none 0, rfl⟩)

end KoraBot
